import Mathlib

/-!
Verification of the streaming PKCS7 signed-envelope example and the wrapper
benchmark flow of wolfTPM (`examples/pkcs7/pkcs7.c`, `examples/bench/bench.c`)
against their natural-language specification.

The C code is shallowly embedded: machine words are `Nat` (the relevant
quantities never exceed 2^32 and the source guards every subtraction),
fallible collaborator calls are driven by explicit result-code oracles, and
byte buffers are `List Nat`.
-/

/-! ### The chunk source `GetMyData` (pkcs7.c lines 62-88) -/

/-- `MY_DATA_TOTAL` from pkcs7.c line 63: `(1024 * 1024) + 12`
("odd remainder for test"). -/
def MY_DATA_TOTAL : Nat := 1024 * 1024 + 12

/-- Modelled from the spec: `MY_DATA_CHUNKS` is `WOLFTPM2_MAX_BUFFER`
(pkcs7.c line 62), a constant defined in a header that is not part of the
sources at hand; spec section 8 fixes the chunk size at 2048 bytes. -/
def MY_DATA_CHUNKS : Nat := 2048

/-- Embedding of `GetMyData` (pkcs7.c lines 64-88).  The C function takes a
possibly-NULL byte pointer, a capacity and an offset (both `word32`); it
returns an `int` count and fills the buffer.  We model the pointer as an
`Option Unit` (NULL is `none`) and return the pair (count, bytes written).
All counts returned by the C code are non-negative and at most
`MY_DATA_TOTAL`, so a `Nat` count is faithful.  `i & 0xff` on the
non-negative loop index is `i % 256`. -/
def GetMyData : Option Unit → Nat → Nat → Nat × List Nat
  | none, _, _ => (MY_DATA_TOTAL, [])
  | some _, bufSz, offset =>
    if MY_DATA_TOTAL ≤ offset then
      (0, [])
    else
      let sz := if MY_DATA_TOTAL - offset < bufSz then MY_DATA_TOTAL - offset else bufSz
      (sz, (List.range sz).map (fun i => i % 256))

/-- The byte that a call `GetMyData(buf, cap, offset)` delivers for the
absolute content position `p` (the byte stored at buffer index `p - offset`),
if that call delivered it at all. -/
def deliveredByte (cap offset p : Nat) : Option Nat :=
  ((GetMyData (some ()) cap offset).2).get? (p - offset)

/-- Closed-form characterization of a non-NULL `GetMyData` call. -/
theorem GetMyData_some (bufSz offset : Nat) :
    GetMyData (some ()) bufSz offset =
      if MY_DATA_TOTAL ≤ offset then (0, ([] : List Nat))
      else (min bufSz (MY_DATA_TOTAL - offset),
        (List.range (min bufSz (MY_DATA_TOTAL - offset))).map (fun i => i % 256)) := by
  show (if MY_DATA_TOTAL ≤ offset then ((0 : Nat), ([] : List Nat))
      else
        let sz := if MY_DATA_TOTAL - offset < bufSz then MY_DATA_TOTAL - offset else bufSz
        (sz, (List.range sz).map (fun i => i % 256))) = _
  split
  · rfl
  · have hm : (if MY_DATA_TOTAL - offset < bufSz then MY_DATA_TOTAL - offset else bufSz)
        = min bufSz (MY_DATA_TOTAL - offset) := by
      rcases Nat.lt_or_ge (MY_DATA_TOTAL - offset) bufSz with h2 | h2
      · rw [if_pos h2, Nat.min_eq_right (Nat.le_of_lt h2)]
      · rw [if_neg (by omega), Nat.min_eq_left h2]
    simp only [hm]

theorem GetMyData_count_le (bufSz offset : Nat) :
    (GetMyData (some ()) bufSz offset).1 ≤ MY_DATA_TOTAL - offset := by
  rw [GetMyData_some]
  split
  · simp
  · simp

theorem GetMyData_count_eq_min (bufSz offset : Nat) (h : offset < MY_DATA_TOTAL) :
    (GetMyData (some ()) bufSz offset).1 = min bufSz (MY_DATA_TOTAL - offset) := by
  rw [GetMyData_some, if_neg (by omega)]

theorem GetMyData_snd_eq (bufSz offset : Nat) (h : offset < MY_DATA_TOTAL) :
    (GetMyData (some ()) bufSz offset).2
      = (List.range (min bufSz (MY_DATA_TOTAL - offset))).map (fun i => i % 256) := by
  rw [GetMyData_some, if_neg (by omega)]

theorem GetMyData_length (bufSz offset : Nat) :
    (GetMyData (some ()) bufSz offset).2.length = (GetMyData (some ()) bufSz offset).1 := by
  rw [GetMyData_some]
  split <;> simp

theorem GetMyData_zero_of_past_end (bufSz offset : Nat) (h : MY_DATA_TOTAL ≤ offset) :
    GetMyData (some ()) bufSz offset = (0, []) := by
  rw [GetMyData_some, if_pos h]

/-- **C8** — For every non-null destination buffer, capacity and offset
(within the `word32` domain of the C function): if the offset is at least
`MY_DATA_TOTAL = 1,048,588` then `GetMyData` returns 0 and writes nothing;
otherwise it writes exactly `min bufSz (MY_DATA_TOTAL - offset)` bytes and
returns that count. -/
theorem C8_getMyData_count (bufSz offset : Nat)
    (hb : bufSz < 2 ^ 32) (ho : offset < 2 ^ 32) :
    (MY_DATA_TOTAL ≤ offset → GetMyData (some ()) bufSz offset = (0, [])) ∧
    (offset < MY_DATA_TOTAL →
      (GetMyData (some ()) bufSz offset).1 = min bufSz (MY_DATA_TOTAL - offset) ∧
      (GetMyData (some ()) bufSz offset).2.length = min bufSz (MY_DATA_TOTAL - offset)) := by
  refine ⟨fun h => GetMyData_zero_of_past_end bufSz offset h, fun h => ⟨?_, ?_⟩⟩
  · exact GetMyData_count_eq_min bufSz offset h
  · rw [GetMyData_length]
    exact GetMyData_count_eq_min bufSz offset h

/-- Witness for C8: a concrete in-range call (remainder-clamped) and a
concrete past-the-end call. -/
theorem C8_getMyData_count_witness :
    (GetMyData (some ()) 5 1048585).1 = min 5 (MY_DATA_TOTAL - 1048585) ∧
    GetMyData (some ()) 5 1048589 = (0, []) := by
  refine ⟨((C8_getMyData_count 5 1048585 (by decide) (by decide)).2 (by decide)).1, ?_⟩
  exact (C8_getMyData_count 5 1048589 (by decide) (by decide)).1 (by decide)

/-- **C9** — Calling `GetMyData` with a NULL buffer returns the total content
length `1,048,588 = 1024*1024 + 12` and writes nothing, for every capacity and
offset (both arguments are ignored, including offsets past the end). -/
theorem C9_getMyData_total_query :
    (∀ bufSz offset : Nat, GetMyData none bufSz offset = (MY_DATA_TOTAL, [])) ∧
    MY_DATA_TOTAL = 1048588 := by
  exact ⟨fun _ _ => rfl, by norm_num [MY_DATA_TOTAL]⟩

theorem getMyData_byte_at (bufSz offset i : Nat)
    (hi : i < (GetMyData (some ()) bufSz offset).1) :
    (GetMyData (some ()) bufSz offset).2.get? i = some (i % 256) := by
  have ho : offset < MY_DATA_TOTAL := by
    by_contra h
    rw [GetMyData_zero_of_past_end bufSz offset (by omega)] at hi
    exact absurd hi (by simp)
  have hcnt := GetMyData_count_eq_min bufSz offset ho
  rw [GetMyData_snd_eq bufSz offset ho, List.get?_map, List.get?_range (by omega)]
  rfl

/-- **C10** — Whenever `GetMyData` returns a count `n > 0`, the byte stored at
buffer index `i < n` is `i % 256`, a function of the position within the chunk
only; consequently the byte obtained for a fixed absolute position depends on
the chunk partitioning (concretely, absolute position 2 is byte 2 when read
by the call at offset 0 and byte 0 when read by the call at offset 2). -/
theorem C10_getMyData_bytes (bufSz offset i : Nat)
    (hi : i < (GetMyData (some ()) bufSz offset).1) :
    (GetMyData (some ()) bufSz offset).2.get? i = some (i % 256) ∧
    deliveredByte 4 0 2 = some 2 ∧ deliveredByte 4 2 2 = some 0 :=
  ⟨getMyData_byte_at bufSz offset i hi, by decide, by decide⟩

/-- Witness for C10 at a concrete call: index 3 of the chunk served at
offset 1,048,580 with capacity 100 (clamped to 8 bytes) holds byte 3. -/
theorem C10_getMyData_bytes_witness :
    (GetMyData (some ()) 100 1048580).2.get? 3 = some (3 % 256) :=
  (C10_getMyData_bytes 100 1048580 3 (by decide)).1

/-- **C7 counterexample** — the claim "the logical content byte at any
absolute position `p` is the same regardless of which (offset, capacity) call
delivers position `p`" is false: absolute position 1 is delivered as byte 1
by the call at offset 0 and as byte 0 by the call at offset 1 (capacity 2 in
both calls, position 1 within both calls' returned counts). -/
theorem C7_restartability_counterexample :
    deliveredByte 2 0 1 = some 1 ∧ deliveredByte 2 1 1 = some 0 ∧
    deliveredByte 2 0 1 ≠ deliveredByte 2 1 1 := by
  refine ⟨by decide, by decide, by decide⟩

/-- **C7 (amended)** — `GetMyData` is deterministic in (offset, capacity):
it reads no mutable state, which the embedding reflects by being a pure
function, so two calls with equal arguments return identical bytes and
counts.  However it is not positionally restartable: the byte delivered for
absolute position `p` by the call at offset `offset` is `(p - offset) % 256`,
a function of the delivering call's offset, not of `p` alone. -/
theorem C7_positional_amended (cap offset p : Nat)
    (h1 : offset ≤ p) (h2 : p < offset + (GetMyData (some ()) cap offset).1) :
    deliveredByte cap offset p = some ((p - offset) % 256) ∧
    GetMyData (some ()) cap offset = GetMyData (some ()) cap offset := by
  refine ⟨?_, rfl⟩
  unfold deliveredByte
  exact getMyData_byte_at cap offset (p - offset) (by omega)

/-- Witness for C7 (amended): position 3 delivered by the call at offset 2
with capacity 4 is byte `(3 - 2) % 256 = 1`. -/
theorem C7_positional_amended_witness :
    deliveredByte 4 2 3 = some ((3 - 2) % 256) :=
  (C7_positional_amended 4 2 3 (by decide) (by decide)).1

/-! ### The incremental hashing loop of `PKCS7_SignVerifyEx` (pkcs7.c lines 111-126)

The C loop

    do \{
        dataChunkSz = GetMyData(dataChunk, sizeof(dataChunk), offset);
        if (dataChunkSz == 0) break;
        rc = wc_HashUpdate(&hash, hashType, dataChunk, dataChunkSz);
        offset += dataChunkSz;
    } while (rc == 0);

is embedded with an explicit fuel parameter so that the definition is
structurally recursive (and hence evaluates inside the kernel); every lemma
assumes enough fuel, and the flow model supplies `MY_DATA_TOTAL + 1`, which
suffices because each iteration that does not terminate the loop advances
`offset` by at least one byte.  Each recursive step is exactly one iteration
of the C loop.  `uRc k` is the result code of the k-th `wc_HashUpdate` call;
the returned triple is (final rc, the (offset, bytes) pairs fed to
`wc_HashUpdate`, the final value of `offset`). -/
def hashLoopF (uRc : Nat → Int) (cap : Nat) : Nat → Nat → Nat → Int × List (Nat × List Nat) × Nat
  | 0, offset, _ => (0, [], offset)
  | fuel + 1, offset, k =>
    if (GetMyData (some ()) cap offset).1 = 0 then (0, [], offset)
    else if uRc k ≠ 0 then
      (uRc k, [(offset, (GetMyData (some ()) cap offset).2)],
        offset + (GetMyData (some ()) cap offset).1)
    else
      ((hashLoopF uRc cap fuel (offset + (GetMyData (some ()) cap offset).1) (k + 1)).1,
       (offset, (GetMyData (some ()) cap offset).2)
         :: (hashLoopF uRc cap fuel (offset + (GetMyData (some ()) cap offset).1) (k + 1)).2.1,
       (hashLoopF uRc cap fuel (offset + (GetMyData (some ()) cap offset).1) (k + 1)).2.2)

/-- The body-writing loop of the file section (pkcs7.c lines 171-183).  Note
that the C loop condition is `while (rc == 0)` where `rc` holds the XFWRITE
byte count of the chunk just written, which is nonzero after any successful
write, so at most one chunk is ever written; and the loop exits immediately
when `GetMyData` returns 0.  No recursion is needed to embed it. -/
def bodyLoop (cap offset : Nat) : List (Nat × List Nat) × Nat :=
  if (GetMyData (some ()) cap offset).1 = 0 then ([], offset)
  else ([(offset, (GetMyData (some ()) cap offset).2)],
    offset + (GetMyData (some ()) cap offset).1)

/-- One-step unfolding of `hashLoopF` at positive fuel. -/
theorem hashLoopF_succ (uRc : Nat → Int) (cap m offset k : Nat) :
    hashLoopF uRc cap (m + 1) offset k =
      if (GetMyData (some ()) cap offset).1 = 0 then (0, [], offset)
      else if uRc k ≠ 0 then
        (uRc k, [(offset, (GetMyData (some ()) cap offset).2)],
          offset + (GetMyData (some ()) cap offset).1)
      else
        ((hashLoopF uRc cap m (offset + (GetMyData (some ()) cap offset).1) (k + 1)).1,
         (offset, (GetMyData (some ()) cap offset).2)
           :: (hashLoopF uRc cap m (offset + (GetMyData (some ()) cap offset).1) (k + 1)).2.1,
         (hashLoopF uRc cap m (offset + (GetMyData (some ()) cap offset).1) (k + 1)).2.2) := rfl

theorem hashLoopF_rc_zero (cap : Nat) :
    ∀ (fuel offset k : Nat), (hashLoopF (fun _ => 0) cap fuel offset k).1 = 0 := by
  intro fuel
  induction fuel with
  | zero => intro offset k; rfl
  | succ m ih =>
    intro offset k
    rw [hashLoopF_succ]
    by_cases hstop : (GetMyData (some ()) cap offset).1 = 0
    · rw [if_pos hstop]
    · rw [if_neg hstop, if_neg (by simp)]
      exact ih _ _

/-- With positive capacity, enough fuel and all update calls succeeding, the
loop runs until the chunk source is exhausted: the final offset is
`MY_DATA_TOTAL` and the lengths of the chunks fed to the digest sum to
exactly the remaining content length. -/
theorem hashLoopF_coverage (cap : Nat) (hcap : 0 < cap) :
    ∀ (fuel offset k : Nat), offset ≤ MY_DATA_TOTAL → MY_DATA_TOTAL - offset < fuel →
    (hashLoopF (fun _ => 0) cap fuel offset k).2.2 = MY_DATA_TOTAL ∧
    (((hashLoopF (fun _ => 0) cap fuel offset k).2.1).map (fun oc => oc.2.length)).sum
      = MY_DATA_TOTAL - offset := by
  intro fuel
  induction fuel with
  | zero => intro offset k ho hf; omega
  | succ m ih =>
    intro offset k ho hf
    rw [hashLoopF_succ]
    by_cases hstop : (GetMyData (some ()) cap offset).1 = 0
    · have hoff : offset = MY_DATA_TOTAL := by
        rcases Nat.lt_or_ge offset MY_DATA_TOTAL with hlt | hge
        · rw [GetMyData_count_eq_min cap offset hlt] at hstop
          omega
        · omega
      rw [if_pos hstop]
      simp [hoff]
    · have hlt : offset < MY_DATA_TOTAL := by
        by_contra h
        rw [GetMyData_zero_of_past_end cap offset (by omega)] at hstop
        exact hstop rfl
      have hcnt := GetMyData_count_eq_min cap offset hlt
      have hle := GetMyData_count_le cap offset
      have hpos : 0 < (GetMyData (some ()) cap offset).1 := Nat.pos_of_ne_zero hstop
      have ihh := ih (offset + (GetMyData (some ()) cap offset).1) (k + 1)
        (by omega) (by omega)
      rw [if_neg hstop, if_neg (by simp)]
      dsimp only
      rw [List.map_cons, List.sum_cons, GetMyData_length]
      refine ⟨ihh.1, ?_⟩
      rw [ihh.2]
      omega

/-- With positive capacity, enough fuel and all update calls succeeding, the
j-th chunk fed to the digest is served at offset `offset + j * cap` and holds
exactly the bytes `GetMyData` returns there; past the end of the content
there is no chunk. -/
theorem hashLoopF_chunks (cap : Nat) (hcap : 0 < cap) :
    ∀ (fuel offset k j : Nat), offset ≤ MY_DATA_TOTAL → MY_DATA_TOTAL - offset < fuel →
    ((hashLoopF (fun _ => 0) cap fuel offset k).2.1).get? j
      = if offset + j * cap < MY_DATA_TOTAL
        then some (offset + j * cap, (GetMyData (some ()) cap (offset + j * cap)).2)
        else none := by
  intro fuel
  induction fuel with
  | zero => intro offset k j ho hf; omega
  | succ m ih =>
    intro offset k j ho hf
    rw [hashLoopF_succ]
    by_cases hstop : (GetMyData (some ()) cap offset).1 = 0
    · have hoff : offset = MY_DATA_TOTAL := by
        rcases Nat.lt_or_ge offset MY_DATA_TOTAL with hlt | hge
        · rw [GetMyData_count_eq_min cap offset hlt] at hstop
          omega
        · omega
      rw [if_pos hstop, if_neg (by omega)]
      rfl
    · have hlt : offset < MY_DATA_TOTAL := by
        by_contra h
        rw [GetMyData_zero_of_past_end cap offset (by omega)] at hstop
        exact hstop rfl
      have hcnt := GetMyData_count_eq_min cap offset hlt
      have hle := GetMyData_count_le cap offset
      have hpos : 0 < (GetMyData (some ()) cap offset).1 := Nat.pos_of_ne_zero hstop
      rw [if_neg hstop, if_neg (by simp)]
      cases j with
      | zero =>
        dsimp only [List.get?_cons_zero]
        rw [if_pos (by omega)]
        simp
      | succ j' =>
        dsimp only [List.get?_cons_succ]
        rw [ih (offset + (GetMyData (some ()) cap offset).1) (k + 1) j' (by omega) (by omega)]
        rcases Nat.lt_or_ge (MY_DATA_TOTAL - offset) cap with hrem | hfull
        · -- final partial chunk: the next offset is MY_DATA_TOTAL, no chunk follows
          have hc : (GetMyData (some ()) cap offset).1 = MY_DATA_TOTAL - offset := by omega
          rw [if_neg (by omega), if_neg (by
            have hsm : j' * cap + cap ≤ (j' + 1) * cap := by rw [Nat.succ_mul]
            omega)]
        · -- full chunk of `cap` bytes: offsets line up as offset + (j'+1)*cap
          have hc : (GetMyData (some ()) cap offset).1 = cap := by omega
          rw [hc]
          have harith : offset + cap + j' * cap = offset + (j' + 1) * cap := by
            rw [Nat.succ_mul]
            omega
          rw [harith]

/-! ### The large-data flow `PKCS7_SignVerifyEx` (pkcs7.c lines 92-227)

The wolfCrypt hash is a collaborator: the flow is parameterized by an
abstract digest state `D` with start/update/finish functions (`wc_HashInit`,
`wc_HashUpdate`, `wc_HashFinal`), and by an abstract encoder
`enc : devId → digest → header × footer` standing for
`wc_PKCS7_EncodeSignedData_ex`.  Result codes of all fallible collaborator
calls come from an explicit oracle, so the theorems quantify over every
error path the C control flow can take.  File writes (`XFWRITE`) are modelled
as succeeding; their byte counts still drive the body loop condition exactly
as in the C code. -/

/-- The start/update/finish interface of the incremental digest
(`wc_HashInit` / `wc_HashUpdate` / `wc_HashFinal`). -/
structure HashFns (D : Type) where
  start : D
  update : D → List Nat → D
  finish : D → D

/-- `INVALID_DEVID`: the device id selecting the software crypto backend. -/
def INVALID_DEVID : Int := -2

/-- Observable events of one `PKCS7_SignVerifyEx` run, in program order.
`read` records a non-NULL `GetMyData` call (offset, returned count);
`queryTotal` a NULL `GetMyData` call; `verifyEv` records a
`wc_PKCS7_VerifySignedData_ex` call with the device id, the digest argument
(`hashBuf`), the header/footer arguments and `pkcs7.contentSz`. -/
inductive P7Ev (D H F : Type) where
  | read : Nat → Nat → P7Ev D H F
  | queryTotal : Nat → P7Ev D H F
  | hStart : P7Ev D H F
  | hUpdate : Nat → P7Ev D H F
  | hFinish : P7Ev D H F
  | encodeEv : Int → P7Ev D H F
  | writeHead : P7Ev D H F
  | writeBody : Nat → P7Ev D H F
  | writeFoot : P7Ev D H F
  | verifyEv : Int → D → H → F → Nat → P7Ev D H F
  deriving DecidableEq, Repr

/-- One piece of the `pkcs7tpmsignedex.p7s` file written by the file section:
the header bytes, one body chunk of content bytes, or the footer bytes. -/
inductive FPart where
  | head : FPart
  | content : List Nat → FPart
  | foot : FPart
  deriving DecidableEq, Repr

/-- Result codes of the fallible collaborator calls inside
`PKCS7_SignVerifyEx`, in program order; `\{}` is the all-success run.
`fileOpen` tells whether `XFOPEN` of the temp file succeeds (the C code
silently skips the whole file section otherwise). -/
structure ExOracle where
  hashStartRc : Int := 0
  updateRc : Nat → Int := fun _ => 0
  hashFinishRc : Int := 0
  init1Rc : Int := 0
  cert1Rc : Int := 0
  encodeRc : Int := 0
  fileOpen : Bool := true
  init2Rc : Int := 0
  cert2Rc : Int := 0
  verify1Rc : Int := 0
  init3Rc : Int := 0
  cert3Rc : Int := 0
  verify2Rc : Int := 0

/-- Outcome of one `PKCS7_SignVerifyEx` run: the returned `rc`, the event
trace, the parts written to the temp file (empty when the run exits before
the file section or the open fails), and the value of the C variable
`offset` after the hashing loop. -/
structure ExRun (D H F : Type) where
  rc : Int
  events : List (P7Ev D H F)
  fileParts : List FPart
  offsetAfterHash : Nat
  deriving DecidableEq, Repr

/-- The hashing loop instance run by `PKCS7_SignVerifyEx`: chunk capacity
`MY_DATA_CHUNKS`, starting offset 0. -/
def exLoop (o : ExOracle) : Int × List (Nat × List Nat) × Nat :=
  hashLoopF o.updateRc MY_DATA_CHUNKS (MY_DATA_TOTAL + 1) 0 0

/-- The NULL-buffer total query `GetMyData(NULL, 0, 0)` (pkcs7.c line 129). -/
def exTotal : Nat := (GetMyData none 0 0).1

/-- The digest value `hashBuf` computed by the build phase: the finish of the
fold of the hashing loop's chunks through the update function. -/
def exBuildDigest {D : Type} (hf : HashFns D) (o : ExOracle) : D :=
  hf.finish (((exLoop o).2.1).foldl (fun d oc => hf.update d oc.2) hf.start)

/-- Events of the hashing loop: per iteration a `read` and, when the count is
nonzero, the `hUpdate` it feeds; when the loop ended because `GetMyData`
returned 0, the final zero-count `read` is recorded too. -/
def hashLoopEvents {D H F : Type} (chunks : List (Nat × List Nat)) (rcLoop : Int)
    (endOffset : Nat) : List (P7Ev D H F) :=
  (chunks.bind (fun oc => [.read oc.1 oc.2.length, .hUpdate oc.2.length]))
    ++ (if rcLoop = 0 then [.read endOffset 0] else [])

/-- Events of the body-writing loop: one `read` per `GetMyData` call and a
`writeBody` per chunk actually written (at most one, see `bodyLoop`). -/
def bodyLoopEvents {D H F : Type} (chunks : List (Nat × List Nat))
    (startOffset : Nat) : List (P7Ev D H F) :=
  if chunks = [] then [.read startOffset 0]
  else chunks.bind (fun oc => [.read oc.1 oc.2.length, .writeBody oc.2.length])

/-- Events of the build phase: `wc_HashInit` followed by the hashing loop. -/
def exBuildEvents {D H F : Type} (o : ExOracle) : List (P7Ev D H F) :=
  .hStart :: hashLoopEvents (exLoop o).2.1 (exLoop o).1 (exLoop o).2.2

/-- Events of the file section (pkcs7.c lines 159-195): header write, the
body loop (started at the offset left over from the hashing loop), the second
NULL-buffer total query (line 184), footer write; nothing when the `XFOPEN`
fails, in which case the C code silently skips the section. -/
def exFileEvents {D H F : Type} (o : ExOracle) (offsetAfter : Nat) : List (P7Ev D H F) :=
  if o.fileOpen then
    [.writeHead] ++ bodyLoopEvents (bodyLoop MY_DATA_CHUNKS offsetAfter).1 offsetAfter
      ++ [.queryTotal exTotal, .writeFoot]
  else []

/-- The parts written to the temp file by the file section. -/
def exFileParts (o : ExOracle) (offsetAfter : Nat) : List FPart :=
  if o.fileOpen then
    [.head] ++ (bodyLoop MY_DATA_CHUNKS offsetAfter).1.map (fun oc => .content oc.2) ++ [.foot]
  else []

/-- The two verification calls (pkcs7.c lines 197-220): `wc_PKCS7_Init` /
`wc_PKCS7_InitWithCert` / `wc_PKCS7_VerifySignedData_ex` with the TPM device
id, then the same three calls with `INVALID_DEVID` (software).  Both verify
calls receive the same `hashBuf` digest, the same header/footer buffers and
the same `contentSz`.  Returns the resulting `rc` and the verify-call
events. -/
def exVerifyStage {D H F : Type} (o : ExOracle) (tpmDevId : Int) (digest : D)
    (hd : H) (ft : F) (total : Nat) : Int × List (P7Ev D H F) :=
  if o.init2Rc ≠ 0 then (o.init2Rc, [])
  else if o.cert2Rc ≠ 0 then (o.cert2Rc, [])
  else if o.verify1Rc ≠ 0 then (o.verify1Rc, [.verifyEv tpmDevId digest hd ft total])
  else if o.init3Rc ≠ 0 then (o.init3Rc, [.verifyEv tpmDevId digest hd ft total])
  else if o.cert3Rc ≠ 0 then (o.cert3Rc, [.verifyEv tpmDevId digest hd ft total])
  else (o.verify2Rc,
    [.verifyEv tpmDevId digest hd ft total, .verifyEv INVALID_DEVID digest hd ft total])

/-- Embedding of `PKCS7_SignVerifyEx` (pkcs7.c lines 92-227).  Every early
record mirrors a `goto exit` in the C code.  Note that the C variable
`offset` is not reset between the hashing loop and the body-writing loop of
the file section: the body loop starts at the final offset of the hashing
loop. -/
def PKCS7_SignVerifyEx {D H F : Type} (hf : HashFns D) (enc : Int → D → H × F)
    (o : ExOracle) (tpmDevId : Int) : ExRun D H F :=
  -- rc = wc_HashInit(&hash, hashType)   (line 111)
  if o.hashStartRc ≠ 0 then ⟨o.hashStartRc, [.hStart], [], 0⟩
  -- hashing loop, lines 113-120; a failed wc_HashUpdate aborts (lines 127-128)
  else if (exLoop o).1 ≠ 0 then ⟨(exLoop o).1, exBuildEvents o, [], (exLoop o).2.2⟩
  -- rc = wc_HashFinal(&hash, hashType, hashBuf)  (line 123)
  else if o.hashFinishRc ≠ 0 then
    ⟨o.hashFinishRc, exBuildEvents o ++ [.hFinish], [], (exLoop o).2.2⟩
  -- wc_PKCS7_Init / wc_PKCS7_InitWithCert (lines 132-135)
  else if o.init1Rc ≠ 0 then
    ⟨o.init1Rc, exBuildEvents o ++ [.hFinish, .queryTotal exTotal], [], (exLoop o).2.2⟩
  else if o.cert1Rc ≠ 0 then
    ⟨o.cert1Rc, exBuildEvents o ++ [.hFinish, .queryTotal exTotal], [], (exLoop o).2.2⟩
  -- wc_PKCS7_EncodeSignedData_ex(&pkcs7, hashBuf, hashSz, ...)  (line 146)
  else if o.encodeRc ≠ 0 then
    ⟨o.encodeRc, exBuildEvents o ++ [.hFinish, .queryTotal exTotal, .encodeEv tpmDevId],
      [], (exLoop o).2.2⟩
  else
    -- file section, then the two verifications
    ⟨(exVerifyStage o tpmDevId (exBuildDigest hf o) (enc tpmDevId (exBuildDigest hf o)).1
        (enc tpmDevId (exBuildDigest hf o)).2 exTotal).1,
     exBuildEvents o ++ [.hFinish, .queryTotal exTotal, .encodeEv tpmDevId]
       ++ exFileEvents o (exLoop o).2.2
       ++ (exVerifyStage o tpmDevId (exBuildDigest hf o) (enc tpmDevId (exBuildDigest hf o)).1
            (enc tpmDevId (exBuildDigest hf o)).2 exTotal).2,
     exFileParts o (exLoop o).2.2,
     (exLoop o).2.2⟩

/-- A digest collaborator that ignores the bytes; used to evaluate the flow
on concrete inputs cheaply. -/
def unitHash : HashFns Unit := ⟨(), fun _ _ => (), fun _ => ()⟩

/-- A digest collaborator over `Nat` counting update calls. -/
def countHash : HashFns Nat := ⟨0, fun d _ => d + 1, fun d => d⟩

def isEncodeEv {D H F : Type} : P7Ev D H F → Bool
  | .encodeEv _ => true
  | _ => false

def isPositiveRead {D H F : Type} : P7Ev D H F → Bool
  | .read _ n => decide (0 < n)
  | _ => false

def isHFinish {D H F : Type} : P7Ev D H F → Bool
  | .hFinish => true
  | _ => false

/-- The number of non-NULL `GetMyData` calls that return data and occur at or
after the `wc_PKCS7_EncodeSignedData_ex` call in an event trace. -/
def positiveReadsAfterEncode {D H F : Type} (evs : List (P7Ev D H F)) : Nat :=
  ((evs.dropWhile (fun e => ! isEncodeEv e)).filter isPositiveRead).length

theorem hashLoopEvents_shape {D H F : Type} (chunks : List (Nat × List Nat))
    (rcLoop : Int) (endOffset : Nat) :
    ∀ e ∈ hashLoopEvents (D := D) (H := H) (F := F) chunks rcLoop endOffset,
      (∃ a b, e = P7Ev.read a b) ∨ (∃ n, e = P7Ev.hUpdate n) := by
  intro e he
  simp only [hashLoopEvents, List.mem_append, List.mem_bind] at he
  rcases he with ⟨oc, _, hoc⟩ | he
  · simp only [List.mem_cons, List.mem_singleton, List.not_mem_nil, or_false] at hoc
    rcases hoc with h | h
    · exact Or.inl ⟨oc.1, oc.2.length, h⟩
    · exact Or.inr ⟨oc.2.length, h⟩
  · split at he
    · simp only [List.mem_singleton] at he
      exact Or.inl ⟨endOffset, 0, he⟩
    · exact absurd he (List.not_mem_nil e)

/-- If the hashing loop ends with rc = 0 (no update failure), it has drained
the chunk source: the final offset is `MY_DATA_TOTAL`, for any update
oracle. -/
theorem hashLoopF_end_total (uRc : Nat → Int) (cap : Nat) (hcap : 0 < cap) :
    ∀ (fuel offset k : Nat), offset ≤ MY_DATA_TOTAL → MY_DATA_TOTAL - offset < fuel →
    (hashLoopF uRc cap fuel offset k).1 = 0 →
    (hashLoopF uRc cap fuel offset k).2.2 = MY_DATA_TOTAL := by
  intro fuel
  induction fuel with
  | zero => intro offset k ho hf _; omega
  | succ m ih =>
    intro offset k ho hf hrc
    rw [hashLoopF_succ] at hrc ⊢
    by_cases hstop : (GetMyData (some ()) cap offset).1 = 0
    · have hoff : offset = MY_DATA_TOTAL := by
        rcases Nat.lt_or_ge offset MY_DATA_TOTAL with hlt | hge
        · rw [GetMyData_count_eq_min cap offset hlt] at hstop
          omega
        · omega
      rw [if_pos hstop]
      exact hoff
    · have hlt : offset < MY_DATA_TOTAL := by
        by_contra h
        rw [GetMyData_zero_of_past_end cap offset (by omega)] at hstop
        exact hstop rfl
      have hle := GetMyData_count_le cap offset
      have hpos : 0 < (GetMyData (some ()) cap offset).1 := Nat.pos_of_ne_zero hstop
      rw [if_neg hstop] at hrc ⊢
      by_cases herr : uRc k ≠ 0
      · rw [if_pos herr] at hrc
        exact absurd hrc herr
      · rw [if_neg herr] at hrc ⊢
        exact ih (offset + (GetMyData (some ()) cap offset).1) (k + 1) (by omega) (by omega) hrc

theorem bodyLoop_at_total (cap : Nat) : bodyLoop cap MY_DATA_TOTAL = ([], MY_DATA_TOTAL) := by
  rw [bodyLoop, GetMyData_zero_of_past_end cap MY_DATA_TOTAL (Nat.le_refl _)]
  rfl

theorem bodyLoopEvents_shape {D H F : Type} (chunks : List (Nat × List Nat))
    (startOffset : Nat) :
    ∀ e ∈ bodyLoopEvents (D := D) (H := H) (F := F) chunks startOffset,
      (∃ a b, e = P7Ev.read a b) ∨ (∃ n, e = P7Ev.writeBody n) := by
  intro e he
  simp only [bodyLoopEvents] at he
  split at he
  · simp only [List.mem_singleton] at he
    exact Or.inl ⟨startOffset, 0, he⟩
  · simp only [List.mem_bind] at he
    rcases he with ⟨oc, _, hoc⟩
    simp only [List.mem_cons, List.mem_singleton, List.not_mem_nil, or_false] at hoc
    rcases hoc with h | h
    · exact Or.inl ⟨oc.1, oc.2.length, h⟩
    · exact Or.inr ⟨oc.2.length, h⟩

theorem exVerifyStage_events {D H F : Type} (o : ExOracle) (tpmDevId : Int)
    (digest : D) (hd : H) (ft : F) (total : Nat) :
    ∀ e ∈ (exVerifyStage o tpmDevId digest hd ft total).2,
      e = P7Ev.verifyEv tpmDevId digest hd ft total ∨
      e = P7Ev.verifyEv INVALID_DEVID digest hd ft total := by
  intro e he
  simp only [exVerifyStage] at he
  repeat' split at he
  all_goals simp at he
  all_goals tauto

theorem exFileEvents_shape {D H F : Type} (o : ExOracle) (offsetAfter : Nat) :
    ∀ e ∈ exFileEvents (D := D) (H := H) (F := F) o offsetAfter,
      e = P7Ev.writeHead ∨ e = P7Ev.writeFoot ∨ e = P7Ev.queryTotal exTotal ∨
      (∃ a b, e = P7Ev.read a b) ∨ (∃ n, e = P7Ev.writeBody n) := by
  intro e he
  simp only [exFileEvents] at he
  split at he
  · simp only [List.mem_append, List.mem_cons, List.mem_singleton, List.not_mem_nil,
      or_false, false_or] at he
    rcases he with (he | he) | he | he
    · exact Or.inl he
    · rcases bodyLoopEvents_shape _ _ _ he with ⟨a, b, h⟩ | ⟨n, h⟩
      · exact Or.inr (Or.inr (Or.inr (Or.inl ⟨a, b, h⟩)))
      · exact Or.inr (Or.inr (Or.inr (Or.inr ⟨n, h⟩)))
    · exact Or.inr (Or.inr (Or.inl he))
    · exact Or.inr (Or.inl he)
  · exact absurd he (List.not_mem_nil e)

/-- Every `wc_PKCS7_VerifySignedData_ex` call of the large-data flow receives
as digest argument exactly the digest finalized by the build phase
(`hashBuf`), the header/footer produced by the (single) encode call, and
`contentSz` equal to the NULL-buffer total query; its device id is either the
TPM one or `INVALID_DEVID`. -/
theorem exRun_verifyEv_args {D H F : Type} (hf : HashFns D) (enc : Int → D → H × F)
    (o : ExOracle) (tpmDevId dv : Int) (d : D) (hd : H) (ft : F) (c : Nat)
    (h : P7Ev.verifyEv dv d hd ft c ∈ (PKCS7_SignVerifyEx hf enc o tpmDevId).events) :
    d = exBuildDigest hf o ∧ hd = (enc tpmDevId (exBuildDigest hf o)).1 ∧
    ft = (enc tpmDevId (exBuildDigest hf o)).2 ∧ c = exTotal ∧
    (dv = tpmDevId ∨ dv = INVALID_DEVID) := by
  simp only [PKCS7_SignVerifyEx] at h
  repeat' split at h
  all_goals
    simp only [exBuildEvents, List.mem_append, List.mem_cons, List.mem_singleton,
      List.not_mem_nil, or_false, false_or] at h
  repeat' (rcases h with h | h)
  all_goals
    first
    | (rcases hashLoopEvents_shape _ _ _ _ h with ⟨a, b, he⟩ | ⟨n, he⟩ <;> simp at he)
    | (rcases exFileEvents_shape _ _ _ h with he | he | he | ⟨a, b, he⟩ | ⟨n, he⟩ <;>
        simp at he)
    | (rcases exVerifyStage_events _ _ _ _ _ _ _ h with he | he <;>
        (simp only [P7Ev.verifyEv.injEq] at he
         first
         | exact ⟨he.2.1, he.2.2.1, he.2.2.2.1, he.2.2.2.2, Or.inl he.1⟩
         | exact ⟨he.2.1, he.2.2.1, he.2.2.2.1, he.2.2.2.2, Or.inr he.1⟩))

theorem exFileEvents_at_total {D H F : Type} (o : ExOracle) :
    exFileEvents (D := D) (H := H) (F := F) o MY_DATA_TOTAL
      = if o.fileOpen then
          [.writeHead, .read MY_DATA_TOTAL 0, .queryTotal exTotal, .writeFoot]
        else [] := by
  rw [exFileEvents, bodyLoop_at_total, bodyLoopEvents]
  split
  · rw [if_pos rfl]
    rfl
  · rfl

theorem exVerifyStage_rc_zero {D H F : Type} (o : ExOracle) (tpmDevId : Int) (digest : D)
    (hd : H) (ft : F) (total : Nat)
    (h : (exVerifyStage (D := D) (H := H) (F := F) o tpmDevId digest hd ft total).1 = 0) :
    o.verify1Rc = 0 ∧ o.verify2Rc = 0 := by
  simp only [exVerifyStage] at h
  repeat' split at h
  all_goals simp_all

/-- If the large-data flow returns 0, neither verification call failed: a
nonzero result of either `wc_PKCS7_VerifySignedData_ex` call aborts the flow
and is returned unchanged. -/
theorem exRun_rc_zero {D H F : Type} (hf : HashFns D) (enc : Int → D → H × F)
    (o : ExOracle) (tpmDevId : Int)
    (h : (PKCS7_SignVerifyEx hf enc o tpmDevId).rc = 0) :
    o.verify1Rc = 0 ∧ o.verify2Rc = 0 := by
  simp only [PKCS7_SignVerifyEx] at h
  repeat' split at h
  all_goals first
    | exact exVerifyStage_rc_zero _ _ _ _ _ _ h
    | simp_all

/-- Every `GetMyData` read that returns data happens in the build (hashing)
phase of the large-data flow; in particular the two verification calls are
not preceded by any recomputation of the content digest from the chunk
source. -/
theorem exRun_positive_reads_in_build {D H F : Type} (hf : HashFns D)
    (enc : Int → D → H × F) (o : ExOracle) (tpmDevId : Int) :
    ∀ e ∈ (PKCS7_SignVerifyEx hf enc o tpmDevId).events,
      isPositiveRead e = true → e ∈ exBuildEvents (D := D) (H := H) (F := F) o := by
  intro e he hp
  simp only [PKCS7_SignVerifyEx] at he
  repeat' split at he
  · -- wc_HashInit failed: events = [hStart]
    simp only [List.mem_singleton] at he
    subst he
    exact absurd hp (by simp [isPositiveRead])
  · -- a wc_HashUpdate failed: events = exBuildEvents
    exact he
  · -- wc_HashFinal failed
    simp only [List.mem_append, List.mem_singleton] at he
    rcases he with he | he
    · exact he
    · subst he
      exact absurd hp (by simp [isPositiveRead])
  · -- wc_PKCS7_Init failed
    simp only [List.mem_append, List.mem_cons, List.mem_singleton, List.not_mem_nil,
      or_false] at he
    rcases he with he | he | he
    · exact he
    · subst he
      exact absurd hp (by simp [isPositiveRead])
    · subst he
      exact absurd hp (by simp [isPositiveRead])
  · -- wc_PKCS7_InitWithCert failed
    simp only [List.mem_append, List.mem_cons, List.mem_singleton, List.not_mem_nil,
      or_false] at he
    rcases he with he | he | he
    · exact he
    · subst he
      exact absurd hp (by simp [isPositiveRead])
    · subst he
      exact absurd hp (by simp [isPositiveRead])
  · -- wc_PKCS7_EncodeSignedData_ex failed
    simp only [List.mem_append, List.mem_cons, List.mem_singleton, List.not_mem_nil,
      or_false] at he
    rcases he with he | he | he | he
    · exact he
    all_goals subst he
    all_goals exact absurd hp (by simp [isPositiveRead])
  · -- full flow: file section and verification stage
    have hT : (exLoop o).2.2 = MY_DATA_TOTAL :=
      hashLoopF_end_total o.updateRc MY_DATA_CHUNKS (by norm_num [MY_DATA_CHUNKS])
        (MY_DATA_TOTAL + 1) 0 0 (Nat.zero_le _) (by omega)
        (not_not.mp ‹¬((exLoop o).1 ≠ 0)›)
    rw [hT, exFileEvents_at_total] at he
    simp only [List.mem_append, List.mem_cons, List.mem_singleton, List.not_mem_nil,
      or_false, false_or] at he
    rcases he with ((he | he | he | he) | he) | he
    · exact he
    · subst he
      exact absurd hp (by simp [isPositiveRead])
    · subst he
      exact absurd hp (by simp [isPositiveRead])
    · subst he
      exact absurd hp (by simp [isPositiveRead])
    · split at he
      · simp only [List.mem_cons, List.mem_singleton, List.not_mem_nil, or_false] at he
        rcases he with he | he | he | he
        all_goals subst he
        all_goals exact absurd hp (by simp [isPositiveRead])
      · exact absurd he (List.not_mem_nil e)
    · rcases exVerifyStage_events _ _ _ _ _ _ _ he with he | he
      all_goals subst he
      all_goals exact absurd hp (by simp [isPositiveRead])

theorem hFinish_not_mem_exBuildEvents {D H F : Type} (o : ExOracle) :
    (P7Ev.hFinish : P7Ev D H F) ∉ exBuildEvents o := by
  intro hmem
  rcases List.mem_cons.mp hmem with h | h
  · exact absurd h (by simp)
  · rcases hashLoopEvents_shape _ _ _ _ h with ⟨a, b, hh⟩ | ⟨n, hh⟩ <;> simp at hh

set_option maxRecDepth 100000 in
/-- **C1** — contrary to the claim, the complete message written to the temp
file by the large-data flow is the header immediately followed by the footer:
the body-writing loop emits no content byte at all, because the C variable
`offset` still holds `MY_DATA_TOTAL = 1,048,588` (the value left by the
hashing loop, never reset to 0), so its first `GetMyData` call returns 0 and
the loop breaks at once.  Run on the all-success oracle with the trivial
digest and encoder collaborators. -/
theorem C1_file_body_is_empty :
    (PKCS7_SignVerifyEx unitHash (fun _ _ => ((), ())) {} 1).fileParts
        = [FPart.head, FPart.foot] ∧
    (PKCS7_SignVerifyEx unitHash (fun _ _ => ((), ())) {} 1).offsetAfterHash
        = MY_DATA_TOTAL ∧
    0 < MY_DATA_TOTAL :=
  ⟨by decide, by decide, by decide⟩

set_option maxRecDepth 100000 in
/-- **C2 counterexample** — the claim that the verify step recomputes the
content digest from the chunk source is false on the all-success run: after
the encode call not a single `GetMyData` call returns data (so no
recomputation from the chunk source can happen), yet both verification calls
execute, and the digest argument they receive is the build phase's digest
(with the update-counting digest collaborator: 513 updates, for the 513
chunks of the 1,048,588 bytes pulled at capacity 2048). -/
theorem C2_counterexample :
    positiveReadsAfterEncode
        (PKCS7_SignVerifyEx countHash (fun _ _ => ((), ())) {} 1).events = 0 ∧
    P7Ev.verifyEv 1 513 () () MY_DATA_TOTAL
      ∈ (PKCS7_SignVerifyEx countHash (fun _ _ => ((), ())) {} 1).events ∧
    P7Ev.verifyEv INVALID_DEVID 513 () () MY_DATA_TOTAL
      ∈ (PKCS7_SignVerifyEx countHash (fun _ _ => ((), ())) {} 1).events ∧
    exBuildDigest countHash {} = 513 :=
  ⟨by decide, by decide, by decide, by decide⟩

/-- **C2 (amended)** — in the verify step of the large-data flow the content
digest checked against the signature is the digest computed during the build
step, reused (the C code passes the same `hashBuf` to
`wc_PKCS7_VerifySignedData_ex`); the verify step performs no recomputation
from the chunk source: every `GetMyData` call returning data belongs to the
build (hashing) phase.  Rejection on digest disagreement is delegated to the
external `wc_PKCS7_VerifySignedData_ex`; the flow itself never continues past
a failed verification: it returns 0 only if both verify calls returned 0. -/
theorem C2_verify_digest_reused {D H F : Type} (hf : HashFns D) (enc : Int → D → H × F)
    (o : ExOracle) (tpmDevId dv : Int) (d : D) (hd : H) (ft : F) (c : Nat) :
    (P7Ev.verifyEv dv d hd ft c ∈ (PKCS7_SignVerifyEx hf enc o tpmDevId).events →
        d = exBuildDigest hf o ∧ c = exTotal) ∧
    (∀ e ∈ (PKCS7_SignVerifyEx hf enc o tpmDevId).events,
        isPositiveRead e = true → e ∈ exBuildEvents (D := D) (H := H) (F := F) o) ∧
    ((PKCS7_SignVerifyEx hf enc o tpmDevId).rc = 0 →
        o.verify1Rc = 0 ∧ o.verify2Rc = 0) := by
  refine ⟨fun h => ?_, exRun_positive_reads_in_build hf enc o tpmDevId,
    exRun_rc_zero hf enc o tpmDevId⟩
  have := exRun_verifyEv_args hf enc o tpmDevId dv d hd ft c h
  exact ⟨this.1, this.2.2.2.1⟩

set_option maxRecDepth 100000 in
/-- Witness for C2 (amended) on the all-success run with trivial
collaborators. -/
theorem C2_verify_digest_reused_witness :
    (() = exBuildDigest unitHash {} ∧ MY_DATA_TOTAL = exTotal) ∧
    (({} : ExOracle).verify1Rc = 0 ∧ ({} : ExOracle).verify2Rc = 0) :=
  ⟨(C2_verify_digest_reused unitHash (fun _ _ => ((), ())) {} 1 1 () () ()
      MY_DATA_TOTAL).1 (by decide),
   (C2_verify_digest_reused unitHash (fun _ _ => ((), ())) {} 1 1 () () ()
      MY_DATA_TOTAL).2.2 (by decide)⟩

/-- **C4** — in the build phase the chunks fed to the incremental digest are
pulled at offsets 0, c, 2c, ... (c = 2048, fixed independently of the total
length) until `GetMyData` returns 0; their concatenation has exactly the
total content length reported by the NULL-buffer query, the j-th chunk being
precisely what the chunk source serves at offset j*c; and the digest is
finalized exactly once, before the encode (signing) call. -/
theorem C4_build_digest_coverage {D H F : Type} (hf : HashFns D) (enc : Int → D → H × F)
    (o : ExOracle) (tpmDevId : Int)
    (hu : o.updateRc = fun _ => 0)
    (h1 : o.hashStartRc = 0) (h2 : o.hashFinishRc = 0)
    (h3 : o.init1Rc = 0) (h4 : o.cert1Rc = 0) :
    (∀ j, ((exLoop o).2.1).get? j
        = if j * MY_DATA_CHUNKS < MY_DATA_TOTAL
          then some (j * MY_DATA_CHUNKS,
            (GetMyData (some ()) MY_DATA_CHUNKS (j * MY_DATA_CHUNKS)).2)
          else none) ∧
    ((exLoop o).2.1.map (fun oc => oc.2)).join.length = (GetMyData none 0 0).1 ∧
    (∃ pre post,
      (PKCS7_SignVerifyEx hf enc o tpmDevId).events = pre ++ P7Ev.hFinish :: post ∧
      P7Ev.hFinish ∉ pre ∧ (P7Ev.hFinish : P7Ev D H F) ∉ post ∧
      P7Ev.encodeEv tpmDevId ∈ post) := by
  have hcap : 0 < MY_DATA_CHUNKS := by norm_num [MY_DATA_CHUNKS]
  have hL : (exLoop o).1 = 0 := by
    rw [exLoop, hu]
    exact hashLoopF_rc_zero _ _ _ _
  refine ⟨fun j => ?_, ?_, ?_⟩
  · rw [exLoop, hu]
    have := hashLoopF_chunks MY_DATA_CHUNKS hcap (MY_DATA_TOTAL + 1) 0 0 j
      (Nat.zero_le _) (by omega)
    simpa using this
  · rw [List.length_join, List.map_map]
    have hcov := hashLoopF_coverage MY_DATA_CHUNKS hcap (MY_DATA_TOTAL + 1) 0 0
      (Nat.zero_le _) (by omega)
    rw [exLoop, hu]
    show ((hashLoopF (fun _ => 0) MY_DATA_CHUNKS (MY_DATA_TOTAL + 1) 0 0).2.1.map
      (List.length ∘ fun oc => oc.2)).sum = (GetMyData none 0 0).1
    rw [show (List.length ∘ fun (oc : Nat × List Nat) => oc.2)
          = fun oc => oc.2.length from rfl]
    rw [hcov.2]
    rfl
  · rw [PKCS7_SignVerifyEx, if_neg (by simp [h1]), if_neg (by simp [hL]),
      if_neg (by simp [h2]), if_neg (by simp [h3]), if_neg (by simp [h4])]
    by_cases henc : o.encodeRc ≠ 0
    · rw [if_pos henc]
      refine ⟨exBuildEvents o, [.queryTotal exTotal, .encodeEv tpmDevId], by simp, 
        hFinish_not_mem_exBuildEvents o, by simp, by simp⟩
    · rw [if_neg henc]
      refine ⟨exBuildEvents o,
        [.queryTotal exTotal, .encodeEv tpmDevId] ++ exFileEvents o (exLoop o).2.2
          ++ (exVerifyStage o tpmDevId (exBuildDigest hf o)
              (enc tpmDevId (exBuildDigest hf o)).1
              (enc tpmDevId (exBuildDigest hf o)).2 exTotal).2, by simp,
        hFinish_not_mem_exBuildEvents o, ?_, by simp⟩
      intro hmem
      rcases List.mem_append.mp hmem with hmem | hmem
      · simp only [List.mem_append, List.mem_cons, List.mem_singleton, List.not_mem_nil,
          or_false, false_or] at hmem
        rcases hmem with hmem | hmem
        · simp at hmem
        · rcases exFileEvents_shape _ _ _ hmem with h | h | h | ⟨a, b, h⟩ | ⟨n, h⟩ <;>
            simp at h
      · rcases exVerifyStage_events _ _ _ _ _ _ _ hmem with h | h <;> simp at h

/-- Witness for C4 on the all-success oracle. -/
theorem C4_build_digest_coverage_witness :
    ((exLoop {}).2.1.map (fun oc => oc.2)).join.length = (GetMyData none 0 0).1 :=
  (C4_build_digest_coverage unitHash (fun _ _ => ((), ())) {} 1 rfl rfl rfl rfl rfl).2.1

/-! ### Cross-backend verification (C3)

`wc_PKCS7_EncodeSignedData(_ex)` / `wc_PKCS7_VerifySignedData(_ex)` and the
TPM crypto callback `wolfTPM2_CryptoDevCb` are not among the sources at hand
(the callback is wolfTPM code outside src/, the PKCS7 codec is a collaborator
library), so the signed-envelope round trip is modelled from the spec
(sections 4.3-4.5, 6): the header carries the signer's public-key material
and the digest/signer preamble, the footer carries the signature value over
the content digest; a verifier accepts iff the signature checks over the
supplied digest under the header's public key, and — per the spec's
substitutability requirement — the accept decision is a function of the
envelope and digest only, not of which backend (device id) executes it. -/

/-- Modelled from the spec: the header half of a detached signed envelope —
signer public-key material plus the embedded content digest. -/
structure SpecHead (D : Type) where
  signerPub : Nat
  embeddedDigest : D
  deriving DecidableEq, Repr

/-- Modelled from the spec: the footer half — the signature value, abstracted
as the pair (signing key, digest signed); a signature checks under public key
`p` over digest `d` iff it is literally the pair `(p, d)` (public key
material matching the signing key is abstracted as equality). -/
structure SpecFoot (D : Type) where
  sigKey : Nat
  sigDigest : D
  deriving DecidableEq, Repr

/-- Modelled from the spec: `wc_PKCS7_EncodeSignedData_ex` with key `priv` —
serializes preamble and signer material into the header and the signature
over the supplied digest into the footer.  The device id selects where the
private-key operation runs; the emitted envelope does not depend on it. -/
def specEncode {D : Type} (priv : Nat) (devId : Int) (d : D) : SpecHead D × SpecFoot D :=
  (⟨priv, d⟩, ⟨priv, d⟩)

/-- Modelled from the spec: `wc_PKCS7_VerifySignedData_ex` — checks the
footer's signature over the supplied digest using the header's public key and
checks the embedded digest; 0 on success, nonzero on failure.  The device id
argument (which backend performs the cryptographic check) does not influence
the accept decision, per spec section 4.3 substitutability. -/
def specVerify {D : Type} [DecidableEq D] (devId : Int) (hd : SpecHead D)
    (ft : SpecFoot D) (d : D) (contentSz : Nat) : Int :=
  if ft.sigKey = hd.signerPub ∧ ft.sigDigest = d ∧ hd.embeddedDigest = d then 0 else 1

/-- Modelled from the spec: a single-buffer signed container (the non-Ex
flow), carrying the same material in one buffer. -/
structure SpecEnv (D : Type) where
  signerPub : Nat
  embeddedDigest : D
  sigKey : Nat
  sigDigest : D
  deriving DecidableEq, Repr

/-- Modelled from the spec: `wc_PKCS7_EncodeSignedData` over content digest
`d` with key `priv`. -/
def specEncodeOne {D : Type} (priv : Nat) (devId : Int) (d : D) : SpecEnv D :=
  ⟨priv, d, priv, d⟩

/-- Modelled from the spec: `wc_PKCS7_VerifySignedData` on a single-buffer
container; backend-independent accept decision. -/
def specVerifyOne {D : Type} [DecidableEq D] (devId : Int) (e : SpecEnv D) : Int :=
  if e.sigKey = e.signerPub ∧ e.sigDigest = e.embeddedDigest then 0 else 1

/-- Result codes for the fallible calls of `PKCS7_SignVerify`
(pkcs7.c lines 230-298).  `encodeRes` is the return of
`wc_PKCS7_EncodeSignedData`: positive = byte size of the container,
non-positive = failure (`if (rc <= 0) goto exit`). -/
structure SvOracle where
  init1Rc : Int := 0
  cert1Rc : Int := 0
  encodeRes : Int := 1
  init2Rc : Int := 0
  cert2Rc : Int := 0
  verify1Rc : Int := 0
  init3Rc : Int := 0
  cert3Rc : Int := 0
  verify2Rc : Int := 0

/-- Events of the single-buffer flow: the encode call and the two
`wc_PKCS7_VerifySignedData` calls with the output buffer and its size. -/
inductive SvEv (E : Type) where
  | encodeSD : Int → SvEv E
  | verifySD : Int → E → Int → SvEv E
  deriving DecidableEq, Repr

/-- Embedding of `PKCS7_SignVerify` (pkcs7.c lines 230-298): encode the fixed
message into one output buffer with the TPM key, then verify that same
buffer twice — once with the TPM device id, once with `INVALID_DEVID`.
`encOne devId` abstracts the output buffer produced by
`wc_PKCS7_EncodeSignedData`; both verify calls receive the identical buffer
and the identical size `outputSz = encodeRes`. -/
def PKCS7_SignVerifyOne {E : Type} (encOne : Int → E) (o : SvOracle)
    (tpmDevId : Int) : Int × List (SvEv E) :=
  if o.init1Rc ≠ 0 then (o.init1Rc, [])
  else if o.cert1Rc ≠ 0 then (o.cert1Rc, [])
  else if o.encodeRes ≤ 0 then (o.encodeRes, [.encodeSD tpmDevId])
  else if o.init2Rc ≠ 0 then (o.init2Rc, [.encodeSD tpmDevId])
  else if o.cert2Rc ≠ 0 then (o.cert2Rc, [.encodeSD tpmDevId])
  else if o.verify1Rc ≠ 0 then
    (o.verify1Rc, [.encodeSD tpmDevId, .verifySD tpmDevId (encOne tpmDevId) o.encodeRes])
  else if o.init3Rc ≠ 0 then
    (o.init3Rc, [.encodeSD tpmDevId, .verifySD tpmDevId (encOne tpmDevId) o.encodeRes])
  else if o.cert3Rc ≠ 0 then
    (o.cert3Rc, [.encodeSD tpmDevId, .verifySD tpmDevId (encOne tpmDevId) o.encodeRes])
  else
    (o.verify2Rc,
      [.encodeSD tpmDevId, .verifySD tpmDevId (encOne tpmDevId) o.encodeRes,
        .verifySD INVALID_DEVID (encOne tpmDevId) o.encodeRes])

theorem svRun_verifySD_args {E : Type} (encOne : Int → E) (o : SvOracle)
    (tpmDevId dv : Int) (out : E) (outSz : Int)
    (h : SvEv.verifySD dv out outSz ∈ (PKCS7_SignVerifyOne encOne o tpmDevId).2) :
    out = encOne tpmDevId ∧ outSz = o.encodeRes ∧ (dv = tpmDevId ∨ dv = INVALID_DEVID) := by
  simp only [PKCS7_SignVerifyOne] at h
  repeat' split at h
  all_goals simp only [List.mem_cons, List.mem_singleton, List.not_mem_nil, or_false] at h
  all_goals try (repeat' (rcases h with h | h))
  all_goals first
    | exact ⟨rfl, rfl, Or.inl rfl⟩
    | exact ⟨rfl, rfl, Or.inr rfl⟩

/-- **C3** — an envelope produced via the TPM-backed path verifies under both
backends.  From the sources: both `wc_PKCS7_VerifySignedData_ex` calls of the
large-data flow receive the identical header, footer, digest and content
size, and both `wc_PKCS7_VerifySignedData` calls of the single-buffer flow
receive the identical output buffer and size; the only difference is the
device id (TPM vs `INVALID_DEVID`).  With the spec-modelled encoder/verifier
(the codec and TPM callback are outside the sources), verification of the
emitted envelope succeeds — returns 0 — at every device id, in particular at
both the TPM device id and `INVALid_DEVID`, for both container shapes. -/
theorem C3_cross_backend {D E : Type} [DecidableEq D] (hf : HashFns D) (o : ExOracle)
    (priv : Nat) (tpmDevId dv1 dv2 : Int) (d1 d2 : D) (hd1 hd2 : SpecHead D)
    (ft1 ft2 : SpecFoot D) (c1 c2 : Nat) (encOne : Int → E) (so : SvOracle)
    (out1 out2 : E) (sz1 sz2 : Int) (anyDevId : Int) (dg : D) :
    (P7Ev.verifyEv dv1 d1 hd1 ft1 c1
        ∈ (PKCS7_SignVerifyEx hf (specEncode priv) o tpmDevId).events →
      specVerify dv1 hd1 ft1 d1 c1 = 0) ∧
    (P7Ev.verifyEv dv1 d1 hd1 ft1 c1
        ∈ (PKCS7_SignVerifyEx hf (specEncode priv) o tpmDevId).events →
      P7Ev.verifyEv dv2 d2 hd2 ft2 c2
        ∈ (PKCS7_SignVerifyEx hf (specEncode priv) o tpmDevId).events →
      d1 = d2 ∧ hd1 = hd2 ∧ ft1 = ft2 ∧ c1 = c2) ∧
    (SvEv.verifySD dv1 out1 sz1 ∈ (PKCS7_SignVerifyOne encOne so tpmDevId).2 →
      SvEv.verifySD dv2 out2 sz2 ∈ (PKCS7_SignVerifyOne encOne so tpmDevId).2 →
      out1 = out2 ∧ sz1 = sz2) ∧
    specVerifyOne anyDevId (specEncodeOne priv anyDevId dg) = 0 := by
  refine ⟨fun h => ?_, fun ha hb => ?_, fun ha hb => ?_, ?_⟩
  · have := exRun_verifyEv_args hf (specEncode priv) o tpmDevId dv1 d1 hd1 ft1 c1 h
    rw [this.1, this.2.1, this.2.2.1]
    simp [specVerify, specEncode]
  · have h1 := exRun_verifyEv_args hf (specEncode priv) o tpmDevId dv1 d1 hd1 ft1 c1 ha
    have h2 := exRun_verifyEv_args hf (specEncode priv) o tpmDevId dv2 d2 hd2 ft2 c2 hb
    exact ⟨h1.1.trans h2.1.symm, h1.2.1.trans h2.2.1.symm,
      h1.2.2.1.trans h2.2.2.1.symm, h1.2.2.2.1.trans h2.2.2.2.1.symm⟩
  · have h1 := svRun_verifySD_args encOne so tpmDevId dv1 out1 sz1 ha
    have h2 := svRun_verifySD_args encOne so tpmDevId dv2 out2 sz2 hb
    exact ⟨h1.1.trans h2.1.symm, h1.2.1.trans h2.2.1.symm⟩
  · simp [specVerifyOne, specEncodeOne]

set_option maxRecDepth 100000 in
/-- Witness for C3 on the all-success large-data run with the trivial digest
(D = Unit) and a concrete key, at the TPM verify call and the software verify
call. -/
theorem C3_cross_backend_witness :
    specVerify 1 (specEncode 7 1 ()).1 (specEncode 7 1 ()).2 () MY_DATA_TOTAL = 0 ∧
    specVerify INVALID_DEVID (specEncode 7 1 ()).1 (specEncode 7 1 ()).2 ()
      MY_DATA_TOTAL = 0 ∧
    specVerifyOne 1 (specEncodeOne 7 1 ()) = 0 :=
  ⟨(C3_cross_backend unitHash {} 7 1 1 1 () () (specEncode 7 1 ()).1 (specEncode 7 1 ()).1
      (specEncode 7 1 ()).2 (specEncode 7 1 ()).2 MY_DATA_TOTAL MY_DATA_TOTAL
      (fun _ => ()) {} () () 1 1 1 ()).1 (by decide),
   (C3_cross_backend unitHash {} 7 1 INVALID_DEVID 1 () () (specEncode 7 1 ()).1
      (specEncode 7 1 ()).1 (specEncode 7 1 ()).2 (specEncode 7 1 ()).2 MY_DATA_TOTAL
      MY_DATA_TOTAL (fun _ => ()) {} () () 1 1 1 ()).1 (by decide),
   (C3_cross_backend unitHash {} 7 1 1 1 () () (specEncode 7 1 ()).1 (specEncode 7 1 ()).1
      (specEncode 7 1 ()).2 (specEncode 7 1 ()).2 MY_DATA_TOTAL MY_DATA_TOTAL
      (fun _ => ()) {} () () 1 1 1 ()).2.2.2⟩

/-! ### The wrapper benchmark flow `TPM2_Wrapper_Bench` (bench.c) and
key-handle lifecycle (C5, C6)

Key handles are modelled by per-handle lifecycle counters.  The wrapper
`wolfTPM2_UnloadHandle` lives in wolfTPM code outside the sources at hand, so
its semantics is modelled from the spec (sections 3, 4.6, 6): releasing a
Loaded handle moves it to Unloaded and returns success; invoking it on an
already-released (or never-loaded) handle performs no release.  Unload
result codes are modelled as 0.  The primary storage key is persistent
(probed/reused, spec section 4.6) and is not tracked.

The timed benchmark loops (`bench_stats_start` / `bench_stats_check`) run
their body once and then as many more times as the timer allows; the oracle
supplies that extra iteration count, so the theorems quantify over every
possible loop length. -/

/-- Modelled from the spec/TPM 2.0: `TPM_RC_COMMAND_CODE` (0x143): the
command is not supported by the TPM; from tpm2.h, not among the sources. -/
def TPM_RC_COMMAND_CODE : Int := 0x143

/-- Modelled from the spec/TPM 2.0: `TPM_RC_HASH` (0x080 + 0x003): hash
algorithm not supported; from tpm2.h, not among the sources. -/
def TPM_RC_HASH : Int := 0x83

/-- Lifecycle counters of one key-handle slot: whether it is currently
Loaded, how many times it became Loaded, how many Loaded-to-Unloaded
releases happened, how many times the unload routine was invoked, and how
many loads overwrote a still-loaded handle (leaking it). -/
structure HState where
  loaded : Bool := false
  loads : Nat := 0
  unloadTrans : Nat := 0
  unloadCalls : Nat := 0
  overwrites : Nat := 0
  deriving DecidableEq, Repr

/-- `wolfTPM2_CreateAndLoadKey` (or `getRSAkey`) succeeding on this slot. -/
def loadH (k : HState) : HState :=
  { loaded := true, loads := k.loads + 1, unloadTrans := k.unloadTrans,
    unloadCalls := k.unloadCalls,
    overwrites := k.overwrites + (if k.loaded then 1 else 0) }

/-- One `wolfTPM2_UnloadHandle` invocation on this slot. -/
def unloadH (k : HState) : HState :=
  { k with
      loaded := false
      unloadCalls := k.unloadCalls + 1
      unloadTrans := k.unloadTrans + (if k.loaded then 1 else 0) }

/-- Call sites of the checked operations of `TPM2_Wrapper_Bench`, in program
order; `aesBench j` / `hashBench j` are the results of the j-th
`bench_sym_aes` / `bench_sym_hash` helper call. -/
inductive BSite where
  | devInit | readPub | templStorage | createPrim | nvStore
  | getRandom
  | aesBench : Nat → BSite
  | hashBench : Nat → BSite
  | templRsa | rsaUnloadLoop | rsaCreate | rsaEnc | rsaDec | rsaEncOaep | rsaDecOaep
  | rsaUnload | templEcc | eccUnloadLoop | eccCreate | eccSign | eccVerify | eccUnload
  | templEcc2 | eccCreate2 | ecdh | eccUnload2
  deriving DecidableEq, Repr

/-- Which nonzero result codes each call site tolerates (the flow continues):
the storage-key probe failing selects the create-primary branch (bench.c
lines 213-230); the AES benches tolerate `TPM_RC_COMMAND_CODE` (lines
248-287); the hash benches tolerate codes matching `TPM_RC_HASH` (lines
292-306).  Everything else aborts via `goto exit`. -/
def siteTol : BSite → Int → Bool
  | .readPub, _ => true
  | .aesBench _, rc => rc == TPM_RC_COMMAND_CODE
  | .hashBench _, rc => rc.land TPM_RC_HASH == TPM_RC_HASH
  | _, _ => false

/-- State of one `TPM2_Wrapper_Bench` run: whether a `goto exit` has fired,
the current `rc` variable, the trace of checked-call results, the lifecycle
counters of the `rsaKey` and `eccKey` slots, and the final lifecycle counters
of each `bench_sym_aes` call's local `aesKey`. -/
structure BSt where
  exited : Bool := false
  rc : Int := 0
  trace : List (BSite × Int) := []
  rsa : HState := {}
  ecc : HState := {}
  aesDone : List HState := []
  deriving DecidableEq, Repr

def emitB (st : BSt) (s : BSite) (rc : Int) : BSt :=
  { st with trace := st.trace ++ [(s, rc)], rc := rc }

/-- A checked operation: record the result, then `goto exit` unless the code
is zero or tolerated at this site. -/
def runOp (s : BSite) (rc : Int) (st : BSt) : BSt :=
  if st.exited then st
  else if rc ≠ 0 ∧ siteTol s rc = false then { emitB st s rc with exited := true }
  else emitB st s rc

/-- `wolfTPM2_CreateAndLoadKey` into the rsaKey slot, checked. -/
def runLoadRsa (s : BSite) (rc : Int) (st : BSt) : BSt :=
  if st.exited then st
  else if rc ≠ 0 then { emitB st s rc with exited := true }
  else { emitB st s rc with rsa := loadH st.rsa }

def runLoadEcc (s : BSite) (rc : Int) (st : BSt) : BSt :=
  if st.exited then st
  else if rc ≠ 0 then { emitB st s rc with exited := true }
  else { emitB st s rc with ecc := loadH st.ecc }

/-- A checked `wolfTPM2_UnloadHandle` on the rsaKey slot (result modelled as
0, so the check never fires). -/
def runUnloadRsa (s : BSite) (st : BSt) : BSt :=
  if st.exited then st else { emitB st s 0 with rsa := unloadH st.rsa }

def runUnloadEcc (s : BSite) (st : BSt) : BSt :=
  if st.exited then st else { emitB st s 0 with ecc := unloadH st.ecc }

/-- A timed benchmark loop around one checked operation: the body runs once
and then `extra` more times (while no error occurred). -/
def opLoop (s : BSite) (rcF : Nat → Int) (extra : Nat) (st : BSt) : BSt :=
  (List.range (extra + 1)).foldl (fun acc k => runOp s (rcF k) acc) st

/-- The storage-key setup (bench.c lines 213-236): probe the persistent
handle with `wolfTPM2_ReadPublicKey`; on failure create the primary key and
store it, on success just set the auth. -/
def runStorageSetup (o : Int) (templRc createRc nvRc : Int) (st : BSt) : BSt :=
  if st.exited then st
  else if o ≠ 0 then
    runOp .nvStore nvRc (runOp .createPrim createRc
      (runOp .templStorage templRc (emitB st .readPub o)))
  else emitB st .readPub o

/-- The `wolfTPM2_EncryptDecrypt` loop of `bench_sym_aes` (bench.c lines
172-177): result of the do/while with `extra` additional iterations. -/
def aesLoop (encRc : Nat → Int) (i : Nat) : Nat → Int
  | 0 => encRc i
  | r + 1 => if encRc i ≠ 0 then encRc i else aesLoop encRc (i + 1) r

/-- The first nonzero code among `f i, f (i+1), ..., f (i+n-1)`, else 0. -/
def firstErrFrom (f : Nat → Int) (i : Nat) : Nat → Int
  | 0 => 0
  | m + 1 => if f i ≠ 0 then f i else firstErrFrom f (i + 1) m

/-- Embedding of `bench_sym_aes` (bench.c lines 154-184): get the symmetric
template, create and load the local `aesKey`, run the encrypt/decrypt loop;
on every path — error or success — the single `wolfTPM2_UnloadHandle` at the
helper's exit label runs on the local key.  Returns (rc, final lifecycle
counters of the local key). -/
def benchSymAes (templRc createRc : Int) (encRc : Nat → Int) (extra : Nat) :
    Int × HState :=
  if templRc ≠ 0 then (templRc, unloadH {})
  else if createRc ≠ 0 then (createRc, unloadH {})
  else (aesLoop encRc 0 extra, unloadH (loadH {}))

/-- The hash loop of `bench_sym_hash` (bench.c lines 138-147): per iteration
`wolfTPM2_HashStart` / `HashUpdate` / `HashFinish`, first failure wins. -/
def hashBenchLoop (sRc uRc fRc : Nat → Int) (i : Nat) : Nat → Int
  | 0 =>
    if sRc i ≠ 0 then sRc i
    else if uRc i ≠ 0 then uRc i
    else fRc i
  | r + 1 =>
    if sRc i ≠ 0 then sRc i
    else if uRc i ≠ 0 then uRc i
    else if fRc i ≠ 0 then fRc i
    else hashBenchLoop sRc uRc fRc (i + 1) r

/-- Result codes and loop lengths for one `TPM2_Wrapper_Bench` run, in
program order. -/
structure BenchOracle where
  initRc : Int := 0
  readPubRc : Int := 0
  templStorageRc : Int := 0
  createPrimRc : Int := 0
  nvRc : Int := 0
  rngRc : Nat → Int := fun _ => 0
  rngIters : Nat := 0
  aesTemplRc : Nat → Int := fun _ => 0
  aesCreateRc : Nat → Int := fun _ => 0
  aesEncRc : Nat → Nat → Int := fun _ _ => 0
  aesIters : Nat → Nat := fun _ => 0
  hashStartRc : Nat → Nat → Int := fun _ _ => 0
  hashUpdateRc : Nat → Nat → Int := fun _ _ => 0
  hashFinishRc : Nat → Nat → Int := fun _ _ => 0
  hashIters : Nat → Nat := fun _ => 0
  templRsaRc : Int := 0
  rsaCreateRc : Nat → Int := fun _ => 0
  rsaKeygenIters : Nat := 0
  rsaEncRc : Nat → Int := fun _ => 0
  rsaEncIters : Nat := 0
  rsaDecRc : Nat → Int := fun _ => 0
  rsaDecIters : Nat := 0
  rsaEncORc : Nat → Int := fun _ => 0
  rsaEncOIters : Nat := 0
  rsaDecORc : Nat → Int := fun _ => 0
  rsaDecOIters : Nat := 0
  templEccRc : Int := 0
  eccCreateRc : Nat → Int := fun _ => 0
  eccKeygenIters : Nat := 0
  signRc : Nat → Int := fun _ => 0
  signIters : Nat := 0
  verifyRc : Nat → Int := fun _ => 0
  verifyIters : Nat := 0
  templEcc2Rc : Int := 0
  eccCreate2Rc : Int := 0
  ecdhRc : Nat → Int := fun _ => 0
  ecdhIters : Nat := 0

/-- One iteration of the RSA key-generation benchmark loop (bench.c lines
315-323): from the second iteration on, first unload the previous key, then
create and load a fresh one. -/
def rsaKeygenBody (rcF : Nat → Int) (k : Nat) (st : BSt) : BSt :=
  runLoadRsa .rsaCreate (rcF k) (if 0 < k then runUnloadRsa .rsaUnloadLoop st else st)

def rsaKeygenLoop (rcF : Nat → Int) (extra : Nat) (st : BSt) : BSt :=
  (List.range (extra + 1)).foldl (fun acc k => rsaKeygenBody rcF k acc) st

/-- One iteration of the ECC key-generation benchmark loop (lines 381-390). -/
def eccKeygenBody (rcF : Nat → Int) (k : Nat) (st : BSt) : BSt :=
  runLoadEcc .eccCreate (rcF k) (if 0 < k then runUnloadEcc .eccUnloadLoop st else st)

def eccKeygenLoop (rcF : Nat → Int) (extra : Nat) (st : BSt) : BSt :=
  (List.range (extra + 1)).foldl (fun acc k => eccKeygenBody rcF k acc) st

/-- The j-th `bench_sym_aes` call with its tolerance check at the caller
(`if (rc != 0 && rc != TPM_RC_COMMAND_CODE) goto exit`). -/
def runAesCall (j : Nat) (o : BenchOracle) (st : BSt) : BSt :=
  if st.exited then st
  else
    runOp (.aesBench j)
      (benchSymAes (o.aesTemplRc j) (o.aesCreateRc j) (o.aesEncRc j) (o.aesIters j)).1
      { st with aesDone := st.aesDone
          ++ [(benchSymAes (o.aesTemplRc j) (o.aesCreateRc j) (o.aesEncRc j)
                (o.aesIters j)).2] }

/-- The j-th `bench_sym_hash` call with its tolerance check at the caller
(`if (rc != 0 && (rc & TPM_RC_HASH) != TPM_RC_HASH) goto exit`). -/
def runHashCall (j : Nat) (o : BenchOracle) (st : BSt) : BSt :=
  runOp (.hashBench j)
    (hashBenchLoop (o.hashStartRc j) (o.hashUpdateRc j) (o.hashFinishRc j) 0
      (o.hashIters j)) st

/-- The body of `TPM2_Wrapper_Bench` between the device init and the exit
label (bench.c lines 213-439), in program order. -/
def benchMainFlow (o : BenchOracle) (st : BSt) : BSt :=
  runUnloadEcc .eccUnload2 <|
  opLoop .ecdh o.ecdhRc o.ecdhIters <|
  runLoadEcc .eccCreate2 o.eccCreate2Rc <|
  runOp .templEcc2 o.templEcc2Rc <|
  runUnloadEcc .eccUnload <|
  opLoop .eccVerify o.verifyRc o.verifyIters <|
  opLoop .eccSign o.signRc o.signIters <|
  eccKeygenLoop o.eccCreateRc o.eccKeygenIters <|
  runOp .templEcc o.templEccRc <|
  runUnloadRsa .rsaUnload <|
  opLoop .rsaDecOaep o.rsaDecORc o.rsaDecOIters <|
  opLoop .rsaEncOaep o.rsaEncORc o.rsaEncOIters <|
  opLoop .rsaDec o.rsaDecRc o.rsaDecIters <|
  opLoop .rsaEnc o.rsaEncRc o.rsaEncIters <|
  rsaKeygenLoop o.rsaCreateRc o.rsaKeygenIters <|
  runOp .templRsa o.templRsaRc <|
  runHashCall 3 o <| runHashCall 2 o <| runHashCall 1 o <| runHashCall 0 o <|
  runAesCall 11 o <| runAesCall 10 o <| runAesCall 9 o <| runAesCall 8 o <|
  runAesCall 7 o <| runAesCall 6 o <| runAesCall 5 o <| runAesCall 4 o <|
  runAesCall 3 o <| runAesCall 2 o <| runAesCall 1 o <| runAesCall 0 o <|
  opLoop .getRandom o.rngRc o.rngIters <|
  runStorageSetup o.readPubRc o.templStorageRc o.createPrimRc o.nvRc st

/-- Embedding of `TPM2_Wrapper_Bench` (bench.c lines 190-453): device init
(whose failure returns immediately, before the exit label exists), the main
flow, then the exit label's two unconditional `wolfTPM2_UnloadHandle` calls
on `rsaKey.handle` and `eccKey.handle` (their result codes are ignored by the
C code) and `wolfTPM2_Cleanup`.  Returns (rc, final state). -/
def benchExitBlock (st : BSt) : BSt :=
  { st with rsa := unloadH st.rsa, ecc := unloadH st.ecc }

def TPM2_Wrapper_Bench (o : BenchOracle) : Int × BSt :=
  if o.initRc ≠ 0 then (o.initRc, runOp .devInit o.initRc {})
  else
    ((benchExitBlock (benchMainFlow o (runOp .devInit o.initRc {}))).rc,
      benchExitBlock (benchMainFlow o (runOp .devInit o.initRc {})))

/-- The lifecycle bookkeeping invariant: every load is accounted for by a
release, a leak (overwrite), or by the handle being currently loaded. -/
def consistentH (k : HState) : Prop :=
  k.loads = k.unloadTrans + k.overwrites + (if k.loaded then 1 else 0)

/-- Clean lifecycle so far: consistent and no load ever leaked a loaded
handle. -/
def good0 (k : HState) : Prop := consistentH k ∧ k.overwrites = 0

/-- Exactly-once discipline for one helper-local key. -/
def aesGood (k : HState) : Prop :=
  k.loaded = false ∧ k.overwrites = 0 ∧ k.unloadTrans = k.loads ∧
  k.loads ≤ 1 ∧ k.unloadCalls = 1

theorem good0_empty : good0 {} := by
  constructor <;> simp [consistentH, good0]

theorem good0_load {k : HState} (h : good0 k) (hl : k.loaded = false) :
    good0 (loadH k) := by
  rcases h with ⟨hc, ho⟩
  unfold consistentH at hc
  constructor
  · unfold consistentH loadH
    simp [hl] at hc ⊢
    omega
  · unfold loadH
    simp [hl, ho]

theorem good0_unload {k : HState} (h : good0 k) : good0 (unloadH k) := by
  rcases h with ⟨hc, ho⟩
  unfold consistentH at hc
  constructor
  · unfold consistentH unloadH
    rcases hb : k.loaded <;> simp [hb] at hc ⊢ <;> omega
  · unfold unloadH
    simpa using ho

theorem good0_final {k : HState} (h : good0 k) (hl : k.loaded = false) :
    k.unloadTrans = k.loads := by
  rcases h with ⟨hc, ho⟩
  unfold consistentH at hc
  simp [hl, ho] at hc
  omega

theorem benchSymAes_good (templRc createRc : Int) (encRc : Nat → Int) (extra : Nat) :
    aesGood (benchSymAes templRc createRc encRc extra).2 := by
  unfold benchSymAes
  split
  · show aesGood (unloadH {})
    simp [aesGood, unloadH]
  · split
    · show aesGood (unloadH {})
      simp [aesGood, unloadH]
    · show aesGood (unloadH (loadH {}))
      simp [aesGood, unloadH, loadH]

theorem foldl_preserve {α : Type} (P : BSt → Prop) (f : BSt → α → BSt) :
    ∀ (l : List α), (∀ a ∈ l, ∀ st, P st → P (f st a)) →
      ∀ st, P st → P (l.foldl f st) := by
  intro l
  induction l with
  | nil => intro _ st h; exact h
  | cons a l ih =>
    intro hf st h
    rw [List.foldl_cons]
    exact ih (fun b hb => hf b (List.mem_cons_of_mem a hb)) _
      (hf a (List.mem_cons_self a l) st h)

theorem foldl_proj_eq {α β : Type} (g : BSt → β) (f : BSt → α → BSt)
    (hf : ∀ st a, g (f st a) = g st) :
    ∀ (l : List α) (st : BSt), g (l.foldl f st) = g st := by
  intro l
  induction l with
  | nil => intro st; rfl
  | cons a l ih => intro st; rw [List.foldl_cons, ih, hf]

theorem runOp_rsa (s : BSite) (rc : Int) (st : BSt) : (runOp s rc st).rsa = st.rsa := by
  unfold runOp emitB
  repeat' split
  all_goals rfl

theorem runOp_ecc (s : BSite) (rc : Int) (st : BSt) : (runOp s rc st).ecc = st.ecc := by
  unfold runOp emitB
  repeat' split
  all_goals rfl

theorem runOp_aesDone (s : BSite) (rc : Int) (st : BSt) :
    (runOp s rc st).aesDone = st.aesDone := by
  unfold runOp emitB
  repeat' split
  all_goals rfl

theorem opLoop_rsa (s : BSite) (rcF : Nat → Int) (extra : Nat) (st : BSt) :
    (opLoop s rcF extra st).rsa = st.rsa :=
  foldl_proj_eq BSt.rsa _ (fun st' k => runOp_rsa s (rcF k) st') _ st

theorem opLoop_ecc (s : BSite) (rcF : Nat → Int) (extra : Nat) (st : BSt) :
    (opLoop s rcF extra st).ecc = st.ecc :=
  foldl_proj_eq BSt.ecc _ (fun st' k => runOp_ecc s (rcF k) st') _ st

theorem opLoop_aesDone (s : BSite) (rcF : Nat → Int) (extra : Nat) (st : BSt) :
    (opLoop s rcF extra st).aesDone = st.aesDone :=
  foldl_proj_eq BSt.aesDone _ (fun st' k => runOp_aesDone s (rcF k) st') _ st

theorem runStorageSetup_rsa (a b c d : Int) (st : BSt) :
    (runStorageSetup a b c d st).rsa = st.rsa := by
  unfold runStorageSetup
  repeat' split
  all_goals simp [runOp_rsa, emitB]

theorem runStorageSetup_ecc (a b c d : Int) (st : BSt) :
    (runStorageSetup a b c d st).ecc = st.ecc := by
  unfold runStorageSetup
  repeat' split
  all_goals simp [runOp_ecc, emitB]

theorem runStorageSetup_aesDone (a b c d : Int) (st : BSt) :
    (runStorageSetup a b c d st).aesDone = st.aesDone := by
  unfold runStorageSetup
  repeat' split
  all_goals simp [runOp_aesDone, emitB]

theorem runHashCall_rsa (j : Nat) (o : BenchOracle) (st : BSt) :
    (runHashCall j o st).rsa = st.rsa := runOp_rsa _ _ _

theorem runHashCall_ecc (j : Nat) (o : BenchOracle) (st : BSt) :
    (runHashCall j o st).ecc = st.ecc := runOp_ecc _ _ _

theorem runHashCall_aesDone (j : Nat) (o : BenchOracle) (st : BSt) :
    (runHashCall j o st).aesDone = st.aesDone := runOp_aesDone _ _ _

theorem runAesCall_rsa (j : Nat) (o : BenchOracle) (st : BSt) :
    (runAesCall j o st).rsa = st.rsa := by
  unfold runAesCall
  split
  · rfl
  · rw [runOp_rsa]

theorem runAesCall_ecc (j : Nat) (o : BenchOracle) (st : BSt) :
    (runAesCall j o st).ecc = st.ecc := by
  unfold runAesCall
  split
  · rfl
  · rw [runOp_ecc]

theorem runAesCall_aesGood (j : Nat) (o : BenchOracle) (st : BSt)
    (h : ∀ a ∈ st.aesDone, aesGood a) :
    ∀ a ∈ (runAesCall j o st).aesDone, aesGood a := by
  unfold runAesCall
  split
  · exact h
  · rw [runOp_aesDone]
    intro a ha
    rcases List.mem_append.mp ha with ha | ha
    · exact h a ha
    · rw [List.mem_singleton.mp ha]
      exact benchSymAes_good _ _ _ _

theorem runLoadRsa_ecc (s : BSite) (rc : Int) (st : BSt) :
    (runLoadRsa s rc st).ecc = st.ecc := by
  unfold runLoadRsa emitB
  repeat' split
  all_goals rfl

theorem runLoadRsa_aesDone (s : BSite) (rc : Int) (st : BSt) :
    (runLoadRsa s rc st).aesDone = st.aesDone := by
  unfold runLoadRsa emitB
  repeat' split
  all_goals rfl

theorem runLoadEcc_rsa (s : BSite) (rc : Int) (st : BSt) :
    (runLoadEcc s rc st).rsa = st.rsa := by
  unfold runLoadEcc emitB
  repeat' split
  all_goals rfl

theorem runLoadEcc_aesDone (s : BSite) (rc : Int) (st : BSt) :
    (runLoadEcc s rc st).aesDone = st.aesDone := by
  unfold runLoadEcc emitB
  repeat' split
  all_goals rfl

theorem runUnloadRsa_ecc (s : BSite) (st : BSt) :
    (runUnloadRsa s st).ecc = st.ecc := by
  unfold runUnloadRsa emitB
  split
  all_goals rfl

theorem runUnloadRsa_aesDone (s : BSite) (st : BSt) :
    (runUnloadRsa s st).aesDone = st.aesDone := by
  unfold runUnloadRsa emitB
  split
  all_goals rfl

theorem runUnloadEcc_rsa (s : BSite) (st : BSt) :
    (runUnloadEcc s st).rsa = st.rsa := by
  unfold runUnloadEcc emitB
  split
  all_goals rfl

theorem runUnloadEcc_aesDone (s : BSite) (st : BSt) :
    (runUnloadEcc s st).aesDone = st.aesDone := by
  unfold runUnloadEcc emitB
  split
  all_goals rfl

theorem runUnloadRsa_good0 (s : BSite) (st : BSt) (h : good0 st.rsa) :
    good0 (runUnloadRsa s st).rsa := by
  unfold runUnloadRsa emitB
  split
  · exact h
  · exact good0_unload h

theorem runUnloadEcc_good0 (s : BSite) (st : BSt) (h : good0 st.ecc) :
    good0 (runUnloadEcc s st).ecc := by
  unfold runUnloadEcc emitB
  split
  · exact h
  · exact good0_unload h

theorem rsaKeygenBody_ecc (rcF : Nat → Int) (k : Nat) (st : BSt) :
    (rsaKeygenBody rcF k st).ecc = st.ecc := by
  unfold rsaKeygenBody
  rw [runLoadRsa_ecc]
  split
  · rw [runUnloadRsa_ecc]
  · rfl

theorem rsaKeygenBody_aesDone (rcF : Nat → Int) (k : Nat) (st : BSt) :
    (rsaKeygenBody rcF k st).aesDone = st.aesDone := by
  unfold rsaKeygenBody
  rw [runLoadRsa_aesDone]
  split
  · rw [runUnloadRsa_aesDone]
  · rfl

theorem eccKeygenBody_rsa (rcF : Nat → Int) (k : Nat) (st : BSt) :
    (eccKeygenBody rcF k st).rsa = st.rsa := by
  unfold eccKeygenBody
  rw [runLoadEcc_rsa]
  split
  · rw [runUnloadEcc_rsa]
  · rfl

theorem eccKeygenBody_aesDone (rcF : Nat → Int) (k : Nat) (st : BSt) :
    (eccKeygenBody rcF k st).aesDone = st.aesDone := by
  unfold eccKeygenBody
  rw [runLoadEcc_aesDone]
  split
  · rw [runUnloadEcc_aesDone]
  · rfl

theorem rsaKeygenLoop_ecc (rcF : Nat → Int) (extra : Nat) (st : BSt) :
    (rsaKeygenLoop rcF extra st).ecc = st.ecc :=
  foldl_proj_eq BSt.ecc _ (fun st' k => rsaKeygenBody_ecc rcF k st') _ st

theorem rsaKeygenLoop_aesDone (rcF : Nat → Int) (extra : Nat) (st : BSt) :
    (rsaKeygenLoop rcF extra st).aesDone = st.aesDone :=
  foldl_proj_eq BSt.aesDone _ (fun st' k => rsaKeygenBody_aesDone rcF k st') _ st

theorem eccKeygenLoop_rsa (rcF : Nat → Int) (extra : Nat) (st : BSt) :
    (eccKeygenLoop rcF extra st).rsa = st.rsa :=
  foldl_proj_eq BSt.rsa _ (fun st' k => eccKeygenBody_rsa rcF k st') _ st

theorem eccKeygenLoop_aesDone (rcF : Nat → Int) (extra : Nat) (st : BSt) :
    (eccKeygenLoop rcF extra st).aesDone = st.aesDone :=
  foldl_proj_eq BSt.aesDone _ (fun st' k => eccKeygenBody_aesDone rcF k st') _ st

theorem runLoadRsa_good0 (s : BSite) (rc : Int) (st : BSt) (h : good0 st.rsa)
    (hl : st.exited = true ∨ st.rsa.loaded = false) :
    good0 (runLoadRsa s rc st).rsa := by
  unfold runLoadRsa emitB
  split
  · exact h
  · rcases hl with hl | hl
    · simp_all
    · split
      · exact h
      · exact good0_load h hl

theorem runLoadEcc_good0 (s : BSite) (rc : Int) (st : BSt) (h : good0 st.ecc)
    (hl : st.exited = true ∨ st.ecc.loaded = false) :
    good0 (runLoadEcc s rc st).ecc := by
  unfold runLoadEcc emitB
  split
  · exact h
  · rcases hl with hl | hl
    · simp_all
    · split
      · exact h
      · exact good0_load h hl

theorem runUnloadRsa_exited_or_unloaded (s : BSite) (st : BSt) :
    (runUnloadRsa s st).exited = true ∨ (runUnloadRsa s st).rsa.loaded = false := by
  unfold runUnloadRsa emitB
  split
  · exact Or.inl (by assumption)
  · exact Or.inr rfl

theorem runUnloadEcc_exited_or_unloaded (s : BSite) (st : BSt) :
    (runUnloadEcc s st).exited = true ∨ (runUnloadEcc s st).ecc.loaded = false := by
  unfold runUnloadEcc emitB
  split
  · exact Or.inl (by assumption)
  · exact Or.inr rfl

theorem runOp_exited_or_ecc_unloaded (s : BSite) (rc : Int) (st : BSt)
    (h : st.exited = true ∨ st.ecc.loaded = false) :
    (runOp s rc st).exited = true ∨ (runOp s rc st).ecc.loaded = false := by
  unfold runOp emitB
  repeat' split
  all_goals simp_all

theorem rsaKeygenBody_good0_pos (rcF : Nat → Int) (k : Nat) (st : BSt) (hk : 0 < k)
    (h : good0 st.rsa) : good0 (rsaKeygenBody rcF k st).rsa := by
  unfold rsaKeygenBody
  rw [if_pos hk]
  exact runLoadRsa_good0 _ _ _ (runUnloadRsa_good0 _ _ h)
    (runUnloadRsa_exited_or_unloaded _ _)

theorem rsaKeygenLoop_good0 (rcF : Nat → Int) (extra : Nat) (st : BSt)
    (h : good0 st.rsa) (hl : st.rsa.loaded = false) :
    good0 (rsaKeygenLoop rcF extra st).rsa := by
  unfold rsaKeygenLoop
  rw [List.range_succ_eq_map, List.foldl_cons, List.foldl_map]
  have h0 : good0 (rsaKeygenBody rcF 0 st).rsa := by
    unfold rsaKeygenBody
    rw [if_neg (by omega)]
    exact runLoadRsa_good0 _ _ _ h (Or.inr hl)
  exact foldl_preserve (fun st' => good0 st'.rsa) _ _
    (fun a _ st' hst' => rsaKeygenBody_good0_pos rcF (a + 1) st' (Nat.succ_pos a) hst')
    _ h0

theorem eccKeygenBody_good0_pos (rcF : Nat → Int) (k : Nat) (st : BSt) (hk : 0 < k)
    (h : good0 st.ecc) : good0 (eccKeygenBody rcF k st).ecc := by
  unfold eccKeygenBody
  rw [if_pos hk]
  exact runLoadEcc_good0 _ _ _ (runUnloadEcc_good0 _ _ h)
    (runUnloadEcc_exited_or_unloaded _ _)

theorem eccKeygenLoop_good0 (rcF : Nat → Int) (extra : Nat) (st : BSt)
    (h : good0 st.ecc) (hl : st.ecc.loaded = false) :
    good0 (eccKeygenLoop rcF extra st).ecc := by
  unfold eccKeygenLoop
  rw [List.range_succ_eq_map, List.foldl_cons, List.foldl_map]
  have h0 : good0 (eccKeygenBody rcF 0 st).ecc := by
    unfold eccKeygenBody
    rw [if_neg (by omega)]
    exact runLoadEcc_good0 _ _ _ h (Or.inr hl)
  exact foldl_preserve (fun st' => good0 st'.ecc) _ _
    (fun a _ st' hst' => eccKeygenBody_good0_pos rcF (a + 1) st' (Nat.succ_pos a) hst')
    _ h0

theorem benchMainFlow_rsa_good (o : BenchOracle) (st : BSt) (hr : st.rsa = {}) :
    good0 (benchMainFlow o st).rsa := by
  unfold benchMainFlow
  simp only [runUnloadEcc_rsa, opLoop_rsa, runLoadEcc_rsa, runOp_rsa, eccKeygenLoop_rsa,
    runHashCall_rsa, runAesCall_rsa, runStorageSetup_rsa]
  apply runUnloadRsa_good0
  simp only [opLoop_rsa]
  apply rsaKeygenLoop_good0
  · simp only [runOp_rsa, runHashCall_rsa, runAesCall_rsa, opLoop_rsa,
      runStorageSetup_rsa, hr]
    exact good0_empty
  · simp only [runOp_rsa, runHashCall_rsa, runAesCall_rsa, opLoop_rsa,
      runStorageSetup_rsa, hr]

theorem benchMainFlow_ecc_good (o : BenchOracle) (st : BSt) (he : st.ecc = {}) :
    good0 (benchMainFlow o st).ecc := by
  unfold benchMainFlow
  apply runUnloadEcc_good0
  simp only [opLoop_ecc]
  apply runLoadEcc_good0
  · simp only [runOp_ecc]
    apply runUnloadEcc_good0
    simp only [opLoop_ecc]
    apply eccKeygenLoop_good0
    · simp only [runOp_ecc, runUnloadRsa_ecc, opLoop_ecc, rsaKeygenLoop_ecc,
        runHashCall_ecc, runAesCall_ecc, runStorageSetup_ecc, he]
      exact good0_empty
    · simp only [runOp_ecc, runUnloadRsa_ecc, opLoop_ecc, rsaKeygenLoop_ecc,
        runHashCall_ecc, runAesCall_ecc, runStorageSetup_ecc, he]
  · exact runOp_exited_or_ecc_unloaded _ _ _ (runUnloadEcc_exited_or_unloaded _ _)

theorem benchMainFlow_aes_good (o : BenchOracle) (st : BSt)
    (ha : ∀ a ∈ st.aesDone, aesGood a) :
    ∀ a ∈ (benchMainFlow o st).aesDone, aesGood a := by
  unfold benchMainFlow
  simp only [runUnloadEcc_aesDone, opLoop_aesDone, runLoadEcc_aesDone, runOp_aesDone,
    eccKeygenLoop_aesDone, runUnloadRsa_aesDone, rsaKeygenLoop_aesDone,
    runHashCall_aesDone, runStorageSetup_aesDone]
  repeat apply runAesCall_aesGood
  simp only [opLoop_aesDone, runStorageSetup_aesDone]
  exact ha

/-! ### The PKCS7 example top-level flow `TPM2_PKCS7_ExampleArgs`
(pkcs7.c lines 304-402), for the key-lifecycle claim (C5).  The tracked
handle is the RSA signing key loaded by `getRSAkey`; the primary storage key
is persistent (spec section 4.6) and not tracked.  Every `goto exit` path
after device init reaches the exit label, which invokes
`wolfTPM2_UnloadHandle(&dev, &rsaKey.handle)` exactly once; the failure of
`wolfTPM2_Init` returns before any key is loaded and before the exit label's
unload. -/

/-- Result codes for one `TPM2_PKCS7_ExampleArgs` run.  `setCbRc` is checked
with `rc < 0` (line 337); `derRc` collapses the certificate-file section
(lines 362-378): 0 when the file is absent (section silently skipped) or read
successfully, nonzero (`BUFFER_E` or -1) otherwise. -/
structure P7Oracle where
  initRc : Int := 0
  setCbRc : Int := 0
  storageRc : Int := 0
  templRc : Int := 0
  getRsaRc : Int := 0
  derRc : Int := 0
  signVerifyRc : Int := 0
  signVerifyExRc : Int := 0

/-- Embedding of `TPM2_PKCS7_ExampleArgs` restricted to its result code and
the lifecycle counters of the RSA signing key slot. -/
def TPM2_PKCS7_ExampleArgs (p : P7Oracle) : Int × HState :=
  if p.initRc ≠ 0 then (p.initRc, {})
  else if p.setCbRc < 0 then (p.setCbRc, unloadH {})
  else if p.storageRc ≠ 0 then (p.storageRc, unloadH {})
  else if p.templRc ≠ 0 then (p.templRc, unloadH {})
  else if p.getRsaRc ≠ 0 then (p.getRsaRc, unloadH {})
  else if p.derRc ≠ 0 then (p.derRc, unloadH (loadH {}))
  else if p.signVerifyRc ≠ 0 then (p.signVerifyRc, unloadH (loadH {}))
  else if p.signVerifyExRc ≠ 0 then (p.signVerifyExRc, unloadH (loadH {}))
  else (0, unloadH (loadH {}))

/-- **C5 counterexample** — "not twice" fails on the benchmark flow's success
path: with every operation succeeding and every timed loop running once, the
RSA key is loaded once but `wolfTPM2_UnloadHandle` is invoked on its handle
twice — once at bench.c line 371 and once more in the exit block at line 447
(the ECC key similarly gets a third invocation at line 448 after its two
loads). -/
theorem C5_counterexample :
    (TPM2_Wrapper_Bench {}).2.rsa.loads = 1 ∧
    (TPM2_Wrapper_Bench {}).2.rsa.unloadCalls = 2 ∧
    (TPM2_Wrapper_Bench {}).2.ecc.loads = 2 ∧
    (TPM2_Wrapper_Bench {}).2.ecc.unloadCalls = 3 :=
  ⟨by decide, by decide, by decide, by decide⟩

/-- **C5 (amended)** — on every path of the benchmark flow (any result codes,
any loop lengths) and of the PKCS7 example flow, every key handle that
reaches the Loaded state undergoes exactly one Loaded-to-Unloaded release per
load: at the end no tracked handle is loaded, no load ever overwrote a
loaded handle, and the number of releases equals the number of loads — for
the benchmark's RSA and ECC keys, for each AES bench call's local key (whose
unload routine is moreover invoked exactly once), and for the PKCS7 flow's
RSA signing key (released by at most one unload invocation, exactly one when
it was loaded).  The unload routine may be invoked a second time on the
success path, but the extra invocation hits an already-released handle and
releases nothing (spec-modelled unload semantics). -/
theorem C5_unload_discipline (o : BenchOracle) (p : P7Oracle) :
    ((TPM2_Wrapper_Bench o).2.rsa.loaded = false ∧
     (TPM2_Wrapper_Bench o).2.rsa.overwrites = 0 ∧
     (TPM2_Wrapper_Bench o).2.rsa.unloadTrans = (TPM2_Wrapper_Bench o).2.rsa.loads) ∧
    ((TPM2_Wrapper_Bench o).2.ecc.loaded = false ∧
     (TPM2_Wrapper_Bench o).2.ecc.overwrites = 0 ∧
     (TPM2_Wrapper_Bench o).2.ecc.unloadTrans = (TPM2_Wrapper_Bench o).2.ecc.loads) ∧
    (∀ a ∈ (TPM2_Wrapper_Bench o).2.aesDone, aesGood a) ∧
    ((TPM2_PKCS7_ExampleArgs p).2.loaded = false ∧
     (TPM2_PKCS7_ExampleArgs p).2.overwrites = 0 ∧
     (TPM2_PKCS7_ExampleArgs p).2.unloadTrans = (TPM2_PKCS7_ExampleArgs p).2.loads ∧
     (TPM2_PKCS7_ExampleArgs p).2.loads ≤ 1 ∧
     (TPM2_PKCS7_ExampleArgs p).2.unloadCalls ≤ 1 ∧
     ((TPM2_PKCS7_ExampleArgs p).2.loads = 1 →
       (TPM2_PKCS7_ExampleArgs p).2.unloadCalls = 1)) := by
  have hbench : ∀ k : HState, good0 k → (unloadH k).loaded = false ∧
      (unloadH k).overwrites = 0 ∧ (unloadH k).unloadTrans = (unloadH k).loads := by
    intro k hk
    have h2 := good0_unload hk
    exact ⟨rfl, h2.2, good0_final h2 rfl⟩
  constructor
  · unfold TPM2_Wrapper_Bench
    split
    · refine ⟨?_, ?_, ?_⟩ <;> simp [runOp_rsa]
    · exact hbench _ (benchMainFlow_rsa_good o _ (by rw [runOp_rsa]))
  constructor
  · unfold TPM2_Wrapper_Bench
    split
    · refine ⟨?_, ?_, ?_⟩ <;> simp [runOp_ecc]
    · exact hbench _ (benchMainFlow_ecc_good o _ (by rw [runOp_ecc]))
  constructor
  · unfold TPM2_Wrapper_Bench
    split
    · intro a ha
      exact absurd ha (by simp [runOp_aesDone])
    · exact benchMainFlow_aes_good o _
        (by intro a ha; exact absurd ha (by simp [runOp_aesDone]))
  · unfold TPM2_PKCS7_ExampleArgs
    repeat' split
    all_goals simp [unloadH, loadH]

/-- Witness for C5 (amended): the all-success benchmark run and the
all-success PKCS7 run, with one concrete AES-bench key instance. -/
theorem C5_unload_discipline_witness :
    (TPM2_Wrapper_Bench {}).2.rsa.unloadTrans = (TPM2_Wrapper_Bench {}).2.rsa.loads ∧
    aesGood (unloadH (loadH {})) ∧
    (TPM2_PKCS7_ExampleArgs {}).2.unloadCalls = 1 := by
  have h := C5_unload_discipline {} {}
  exact ⟨h.1.2.2, h.2.2.1 (unloadH (loadH {})) (by decide),
    h.2.2.2.2.2.2.2.2 (by decide)⟩

/-! ### Error propagation in the benchmark flow (C6) -/

/-- A recorded call result is benign: zero, or tolerated at its site. -/
def trOk (ev : BSite × Int) : Prop := ev.2 = 0 ∨ siteTol ev.1 ev.2 = true

/-- Trace invariant: while no `goto exit` fired every recorded result is
benign; once one fired, the trace is benign results followed by exactly the
single fatal result, which the `rc` variable holds unchanged. -/
def TrInv (st : BSt) : Prop :=
  (st.exited = false → ∀ ev ∈ st.trace, trOk ev) ∧
  (st.exited = true → ∃ pre s rcv, st.trace = pre ++ [(s, rcv)] ∧
    (∀ ev ∈ pre, trOk ev) ∧ rcv ≠ 0 ∧ siteTol s rcv = false ∧ st.rc = rcv)

theorem TrInv_empty : TrInv {} := by
  constructor
  · intro _ ev hev
    exact absurd hev (List.not_mem_nil ev)
  · intro h
    exact absurd h (by simp)

theorem runOp_TrInv (s : BSite) (rc : Int) (st : BSt) (h : TrInv st) :
    TrInv (runOp s rc st) := by
  unfold runOp
  split
  · exact h
  · rename_i hex
    have hex' : st.exited = false := by
      rcases hb : st.exited
      · rfl
      · exact absurd hb hex
    split
    · rename_i hbad
      constructor
      · intro hfalse
        simp [emitB] at hfalse
      · intro _
        exact ⟨st.trace, s, rc, rfl, h.1 hex', hbad.1, hbad.2, rfl⟩
    · rename_i hgood
      constructor
      · intro _
        intro ev hev
        rcases List.mem_append.mp hev with hev | hev
        · exact h.1 hex' ev hev
        · rw [List.mem_singleton.mp hev]
          unfold trOk
          by_cases hz : rc = 0
          · exact Or.inl hz
          · rcases hb : siteTol s rc
            · exact absurd ⟨hz, hb⟩ hgood
            · exact Or.inr rfl
      · intro hfalse
        simp [emitB, hex'] at hfalse
  
theorem withAes_TrInv (st : BSt) (l : List HState) (h : TrInv st) :
    TrInv { st with aesDone := l } := h

theorem runLoadK_TrInv_aux (st : BSt) (s : BSite) (rc : Int)
    (hs : ∀ r, siteTol s r = false) (h : TrInv st) (hex : st.exited = false)
    (hbad : rc ≠ 0) :
    TrInv { emitB st s rc with exited := true } := by
  constructor
  · intro hfalse
    simp at hfalse
  · intro _
    exact ⟨st.trace, s, rc, rfl, h.1 hex, hbad, hs rc, rfl⟩

theorem runLoadK_TrInv_aux2 (st : BSt) (s : BSite) (h : TrInv st)
    (hex : st.exited = false) :
    ∀ ev ∈ st.trace ++ [(s, (0 : Int))], trOk ev := by
  intro ev hev
  rcases List.mem_append.mp hev with hev | hev
  · exact h.1 hex ev hev
  · rw [List.mem_singleton.mp hev]
    exact Or.inl rfl

theorem runLoadRsa_TrInv (s : BSite) (rc : Int) (st : BSt)
    (hs : ∀ r, siteTol s r = false) (h : TrInv st) : TrInv (runLoadRsa s rc st) := by
  unfold runLoadRsa
  split
  · exact h
  · rename_i hex
    have hex' : st.exited = false := by
      rcases hb : st.exited
      · rfl
      · exact absurd hb hex
    split
    · exact runLoadK_TrInv_aux st s rc hs h hex' (by assumption)
    · rename_i hz
      have hz' : rc = 0 := by omega
      subst hz'
      constructor
      · intro _
        exact runLoadK_TrInv_aux2 st s h hex'
      · intro hfalse
        simp [emitB, hex'] at hfalse

theorem runLoadEcc_TrInv (s : BSite) (rc : Int) (st : BSt)
    (hs : ∀ r, siteTol s r = false) (h : TrInv st) : TrInv (runLoadEcc s rc st) := by
  unfold runLoadEcc
  split
  · exact h
  · rename_i hex
    have hex' : st.exited = false := by
      rcases hb : st.exited
      · rfl
      · exact absurd hb hex
    split
    · exact runLoadK_TrInv_aux st s rc hs h hex' (by assumption)
    · rename_i hz
      have hz' : rc = 0 := by omega
      subst hz'
      constructor
      · intro _
        exact runLoadK_TrInv_aux2 st s h hex'
      · intro hfalse
        simp [emitB, hex'] at hfalse

theorem runUnloadRsa_TrInv (s : BSite) (st : BSt) (h : TrInv st) :
    TrInv (runUnloadRsa s st) := by
  unfold runUnloadRsa
  split
  · exact h
  · rename_i hex
    have hex' : st.exited = false := by
      rcases hb : st.exited
      · rfl
      · exact absurd hb hex
    constructor
    · intro _
      exact runLoadK_TrInv_aux2 st s h hex'
    · intro hfalse
      simp [emitB, hex'] at hfalse

theorem runUnloadEcc_TrInv (s : BSite) (st : BSt) (h : TrInv st) :
    TrInv (runUnloadEcc s st) := by
  unfold runUnloadEcc
  split
  · exact h
  · rename_i hex
    have hex' : st.exited = false := by
      rcases hb : st.exited
      · rfl
      · exact absurd hb hex
    constructor
    · intro _
      exact runLoadK_TrInv_aux2 st s h hex'
    · intro hfalse
      simp [emitB, hex'] at hfalse

theorem runStorageSetup_TrInv (a b c d : Int) (st : BSt) (h : TrInv st) :
    TrInv (runStorageSetup a b c d st) := by
  unfold runStorageSetup
  split
  · exact h
  · rename_i hex
    have hex' : st.exited = false := by
      rcases hb : st.exited
      · rfl
      · exact absurd hb hex
    have hEmit : TrInv (emitB st .readPub a) := by
      constructor
      · intro _ ev hev
        rcases List.mem_append.mp hev with hev | hev
        · exact h.1 hex' ev hev
        · rw [List.mem_singleton.mp hev]
          exact Or.inr rfl
      · intro hfalse
        simp [emitB, hex'] at hfalse
    split
    · exact runOp_TrInv _ _ _ (runOp_TrInv _ _ _ (runOp_TrInv _ _ _ hEmit))
    · exact hEmit

theorem opLoop_TrInv (s : BSite) (rcF : Nat → Int) (extra : Nat) (st : BSt)
    (h : TrInv st) : TrInv (opLoop s rcF extra st) :=
  foldl_preserve TrInv _ _ (fun k _ st' h' => runOp_TrInv s (rcF k) st' h') st h

theorem rsaKeygenBody_TrInv (rcF : Nat → Int) (k : Nat) (st : BSt) (h : TrInv st) :
    TrInv (rsaKeygenBody rcF k st) := by
  unfold rsaKeygenBody
  refine runLoadRsa_TrInv _ _ _ (fun r => rfl) ?_
  split
  · exact runUnloadRsa_TrInv _ _ h
  · exact h

theorem eccKeygenBody_TrInv (rcF : Nat → Int) (k : Nat) (st : BSt) (h : TrInv st) :
    TrInv (eccKeygenBody rcF k st) := by
  unfold eccKeygenBody
  refine runLoadEcc_TrInv _ _ _ (fun r => rfl) ?_
  split
  · exact runUnloadEcc_TrInv _ _ h
  · exact h

theorem rsaKeygenLoop_TrInv (rcF : Nat → Int) (extra : Nat) (st : BSt) (h : TrInv st) :
    TrInv (rsaKeygenLoop rcF extra st) :=
  foldl_preserve TrInv _ _ (fun k _ st' h' => rsaKeygenBody_TrInv rcF k st' h') st h

theorem eccKeygenLoop_TrInv (rcF : Nat → Int) (extra : Nat) (st : BSt) (h : TrInv st) :
    TrInv (eccKeygenLoop rcF extra st) :=
  foldl_preserve TrInv _ _ (fun k _ st' h' => eccKeygenBody_TrInv rcF k st' h') st h

theorem runAesCall_TrInv (j : Nat) (o : BenchOracle) (st : BSt) (h : TrInv st) :
    TrInv (runAesCall j o st) := by
  unfold runAesCall
  split
  · exact h
  · exact runOp_TrInv _ _ _ (withAes_TrInv st _ h)

theorem runHashCall_TrInv (j : Nat) (o : BenchOracle) (st : BSt) (h : TrInv st) :
    TrInv (runHashCall j o st) :=
  runOp_TrInv _ _ _ h

theorem benchMainFlow_TrInv (o : BenchOracle) (st : BSt) (h : TrInv st) :
    TrInv (benchMainFlow o st) := by
  unfold benchMainFlow
  apply runUnloadEcc_TrInv
  apply opLoop_TrInv
  refine runLoadEcc_TrInv _ _ _ (fun r => rfl) ?_
  apply runOp_TrInv
  apply runUnloadEcc_TrInv
  apply opLoop_TrInv
  apply opLoop_TrInv
  apply eccKeygenLoop_TrInv
  apply runOp_TrInv
  apply runUnloadRsa_TrInv
  apply opLoop_TrInv
  apply opLoop_TrInv
  apply opLoop_TrInv
  apply opLoop_TrInv
  apply rsaKeygenLoop_TrInv
  apply runOp_TrInv
  repeat apply runHashCall_TrInv
  repeat apply runAesCall_TrInv
  apply opLoop_TrInv
  exact runStorageSetup_TrInv _ _ _ _ _ h

theorem benchExitBlock_TrInv (st : BSt) (h : TrInv st) : TrInv (benchExitBlock st) := h

theorem runOp_rc_of_not_exited (s : BSite) (rc : Int) (st : BSt)
    (hex : st.exited = false) : (runOp s rc st).rc = rc := by
  unfold runOp emitB
  rw [if_neg (by simp [hex])]
  split
  all_goals rfl

theorem runUnloadEcc_rc_zero (s : BSite) (st : BSt)
    (hex : (runUnloadEcc s st).exited = false) : (runUnloadEcc s st).rc = 0 := by
  unfold runUnloadEcc emitB at hex ⊢
  split at hex
  · rename_i hst
    rw [if_pos hst]
    rw [hst] at hex
    exact absurd hex (by simp)
  · rename_i hst
    rw [if_neg hst]

theorem TrInv_bench (o : BenchOracle) :
    TrInv (TPM2_Wrapper_Bench o).2 ∧
    (TPM2_Wrapper_Bench o).1 = (TPM2_Wrapper_Bench o).2.rc ∧
    ((TPM2_Wrapper_Bench o).2.exited = false → (TPM2_Wrapper_Bench o).2.rc = 0) := by
  unfold TPM2_Wrapper_Bench
  split
  · rename_i hini
    refine ⟨runOp_TrInv _ _ _ TrInv_empty, ?_, ?_⟩
    · rw [runOp_rc_of_not_exited _ _ _ rfl]
    · intro hex
      unfold runOp emitB at hex
      rw [if_neg (by simp)] at hex
      rw [if_pos ⟨hini, rfl⟩] at hex
      simp at hex
  · refine ⟨benchExitBlock_TrInv _ (benchMainFlow_TrInv o _
      (runOp_TrInv _ _ _ TrInv_empty)), rfl, ?_⟩
    intro hex
    show (benchMainFlow o _).rc = 0
    revert hex
    show (benchMainFlow o _).exited = false → _
    unfold benchMainFlow
    intro hex
    exact runUnloadEcc_rc_zero _ _ hex

/-- The first nonzero code among the per-iteration triples
(start i, update i, finish i) for i in a window of n iterations, else 0. -/
def first3ErrFrom (sR uR fR : Nat → Int) (i : Nat) : Nat → Int
  | 0 => 0
  | m + 1 =>
    if sR i ≠ 0 then sR i
    else if uR i ≠ 0 then uR i
    else if fR i ≠ 0 then fR i
    else first3ErrFrom sR uR fR (i + 1) m

theorem aesLoop_eq_firstErr (e : Nat → Int) :
    ∀ (n i : Nat), aesLoop e i n = firstErrFrom e i (n + 1) := by
  intro n
  induction n with
  | zero =>
    intro i
    unfold aesLoop firstErrFrom firstErrFrom
    split
    · rfl
    · simp_all
  | succ m ih =>
    intro i
    unfold aesLoop firstErrFrom
    split
    · rfl
    · exact ih (i + 1)

theorem hashBenchLoop_eq_first3Err (sR uR fR : Nat → Int) :
    ∀ (n i : Nat), hashBenchLoop sR uR fR i n = first3ErrFrom sR uR fR i (n + 1) := by
  intro n
  induction n with
  | zero =>
    intro i
    unfold hashBenchLoop first3ErrFrom first3ErrFrom
    repeat' split
    all_goals simp_all
  | succ m ih =>
    intro i
    unfold hashBenchLoop first3ErrFrom
    repeat' split
    all_goals try rfl
    exact ih (i + 1)

/-- The oracle where the first AES bench call's `wolfTPM2_CreateAndLoadKey`
fails with `TPM_RC_COMMAND_CODE` and everything else succeeds. -/
def c6Oracle : BenchOracle :=
  { aesCreateRc := fun j => if j = 0 then TPM_RC_COMMAND_CODE else 0 }

/-- **C6 counterexample** — the claim that every nonzero error aborts the
enclosing flow and is never suppressed is false: when the first AES bench
fails with the unsupported-command code `TPM_RC_COMMAND_CODE = 0x143`, the
benchmark flow continues (the trace reaches the final ECC unload) and
returns 0, treating that code as acceptable (bench.c line 250). -/
theorem C6_counterexample :
    (TPM2_Wrapper_Bench c6Oracle).1 = 0 ∧
    (BSite.aesBench 0, TPM_RC_COMMAND_CODE) ∈ (TPM2_Wrapper_Bench c6Oracle).2.trace ∧
    TPM_RC_COMMAND_CODE ≠ 0 ∧
    (BSite.eccUnload2, 0) ∈ (TPM2_Wrapper_Bench c6Oracle).2.trace :=
  ⟨by decide, by decide, by decide, by decide⟩

/-- **C6 (amended)** — error propagation in the benchmark flow, for every
oracle: every recorded result except possibly the last is zero or tolerated
(the tolerated sites being exactly the storage-key existence probe, whose
failure selects the create-primary branch, the AES benches for
`TPM_RC_COMMAND_CODE`, and the hash benches for codes matching
`TPM_RC_HASH`); when the flow aborted, the final trace entry is the
untolerated nonzero code and the flow returns it unchanged; when it never
aborted, every entry is benign and the flow returns 0.  Inside the helpers,
the first failing result code propagates unchanged to the caller:
`bench_sym_aes` returns its template/create failure or the first failing
encrypt/decrypt result, and the `bench_sym_hash` loop returns the first
failing start/update/finish result. -/
theorem C6_error_propagation (o : BenchOracle) (t c : Int) (e : Nat → Int) (n : Nat)
    (sR uR fR : Nat → Int) (m : Nat) :
    (∀ ev ∈ (TPM2_Wrapper_Bench o).2.trace.dropLast, trOk ev) ∧
    ((TPM2_Wrapper_Bench o).2.exited = true →
      ∃ s rcv, (TPM2_Wrapper_Bench o).2.trace.getLast? = some (s, rcv) ∧ rcv ≠ 0 ∧
        siteTol s rcv = false ∧ (TPM2_Wrapper_Bench o).1 = rcv) ∧
    ((TPM2_Wrapper_Bench o).2.exited = false →
      (∀ ev ∈ (TPM2_Wrapper_Bench o).2.trace, trOk ev) ∧
      (TPM2_Wrapper_Bench o).1 = 0) ∧
    ((benchSymAes t c e n).1
      = if t ≠ 0 then t else if c ≠ 0 then c else firstErrFrom e 0 (n + 1)) ∧
    (hashBenchLoop sR uR fR 0 m = first3ErrFrom sR uR fR 0 (m + 1)) := by
  obtain ⟨hinv, hrc, hz⟩ := TrInv_bench o
  refine ⟨?_, ?_, ?_, ?_, hashBenchLoop_eq_first3Err sR uR fR m 0⟩
  · rcases hex : (TPM2_Wrapper_Bench o).2.exited
    · intro ev hev
      exact hinv.1 hex ev (List.dropLast_subset _ hev)
    · obtain ⟨pre, s', rcv, htr, hpre, _, _, _⟩ := hinv.2 hex
      rw [htr, List.dropLast_concat]
      exact hpre
  · intro hex
    obtain ⟨pre, s', rcv, htr, hpre, hnz, htol, hrcv⟩ := hinv.2 hex
    exact ⟨s', rcv, by rw [htr, List.getLast?_concat], hnz, htol, by rw [hrc, hrcv]⟩
  · intro hex
    exact ⟨hinv.1 hex, by rw [hrc]; exact hz hex⟩
  · unfold benchSymAes
    split
    · rfl
    · split
      · rfl
      · exact aesLoop_eq_firstErr e n 0

/-- Witness for C6 (amended): the all-success run never aborts, its whole
trace is benign and it returns 0. -/
theorem C6_error_propagation_witness :
    (∀ ev ∈ (TPM2_Wrapper_Bench {}).2.trace, trOk ev) ∧ (TPM2_Wrapper_Bench {}).1 = 0 :=
  (C6_error_propagation {} 0 0 (fun _ => 0) 0 (fun _ => 0) (fun _ => 0)
    (fun _ => 0) 0).2.2.1 (by decide)
